import Mathlib

/-!
Caching proxy: the caching transport and the response rewriter.

A shallow embedding of `proxy/caching_middleware.go`, `proxy/proxy.go` and
`cache/cache.go`.

* Go strings are Lean strings; byte slices are lists of naturals.
* `http.Header` (a Go map from canonical header name to a slice of values) is a
  finite map seen through its lookup function.
* A body is the state of a stream: `io.ReadAll` and `Close` return, next to
  their Go result, the stream they leave behind (drained, closed).
* The process-wide cache, the origin behind the wrapped `http.RoundTripper`
  and the clock are explicit state: `RoundTrip` takes the cache and a world
  state and returns the new cache and world, together with a trace of the
  cache lookups, forwards and stores it performed, in order.
-/

namespace CachingProxy

/-! ## Strings and bytes -/

/-- A byte slice. -/
abbrev Bytes := List Nat

/-- Substring test on character lists: does `sub` occur in `s`? -/
def containsChars (s sub : List Char) : Bool :=
  match s with
  | [] => sub.isPrefixOf []
  | c :: t => sub.isPrefixOf (c :: t) || containsChars t sub

/-- Go `strings.Contains(s, substr)`. -/
def strings.Contains (s substr : String) : Bool :=
  containsChars s.toList substr.toList

/-! ## `net/textproto` header keys and `net/http` headers -/

/-- Go `textproto.validHeaderFieldByte`: the token characters of RFC 7230,
letters, digits and the punctuation ``!#$%&'*+-.^_`|~``. -/
def validHeaderFieldByte (c : Char) : Bool :=
  c.isAlphanum || "!#$%&*+-.^_|~".toList.contains c
    || c == Char.ofNat 39 || c == Char.ofNat 96

/-- The rewriting pass of Go `textproto.canonicalMIMEHeaderKey`: upper case for
the first letter and for a letter after a dash, lower case elsewhere. -/
def canonicalLetters : Bool → List Char → List Char
  | _, [] => []
  | upper, c :: cs =>
    let d := if upper && c.isLower then c.toUpper
             else if !upper && c.isUpper then c.toLower else c
    d :: canonicalLetters (d == '-') cs

/-- Go `textproto.CanonicalMIMEHeaderKey`: a key holding a byte that is not a
token character is returned unchanged, any other key is canonicalised. -/
def CanonicalMIMEHeaderKey (s : String) : String :=
  if s.toList.all validHeaderFieldByte then String.mk (canonicalLetters true s.toList) else s

/-- Go `http.Header`, a `map[string][]string`: `entries k` is `none` when the
map has no key `k` and `some vs` when it maps `k` to the slice `vs`. -/
@[ext]
structure Header where
  entries : String → Option (List String)

/-- The empty header map. -/
def Header.empty : Header := ⟨fun _ => none⟩

/-- Go `Header.Get`: the first value under the canonical form of `key`, and
`""` when the key is absent or its slice is empty. -/
def Header.Get (h : Header) (key : String) : String :=
  match h.entries (CanonicalMIMEHeaderKey key) with
  | some (v :: _) => v
  | _ => ""

/-- Go `Header.Values`: all values under the canonical form of `key`. -/
def Header.Values (h : Header) (key : String) : List String :=
  match h.entries (CanonicalMIMEHeaderKey key) with
  | some vs => vs
  | none => []

/-- Go `Header.Set`: the canonical form of `key` now maps to the single value. -/
def Header.Set (h : Header) (key value : String) : Header :=
  ⟨fun k => if k = CanonicalMIMEHeaderKey key then some [value] else h.entries k⟩

/-- Go `Header.Del`: the canonical form of `key` is removed from the map. -/
def Header.Del (h : Header) (key : String) : Header :=
  ⟨fun k => if k = CanonicalMIMEHeaderKey key then none else h.entries k⟩

/-- Go `Header.Clone`: a deep copy; as a value it is the same map. -/
def Header.Clone (h : Header) : Header := ⟨fun k => h.entries k⟩

/-! ## Requests, responses and bodies -/

/-- The fields of Go `url.URL` that the program reads or writes. -/
structure URL where
  Scheme : String
  Host : String
  Path : String
  RawQuery : String
  deriving DecidableEq

/-- The state of an `io.ReadCloser`, a stream that reading consumes: the bytes
not read yet, the error (if any) that reading runs into after them, the error
(if any) that `Close` returns, and whether `Close` has been called. -/
structure Body where
  data : Bytes
  readErr : Option String
  closeErr : Option String
  closed : Bool
  deriving DecidableEq

/-- Go `io.ReadAll`: the pair returned, the bytes read and the error (`none`
for a clean end), and the stream after the call, with every byte consumed. -/
def io.ReadAll (b : Body) : (Bytes × Option String) × Body :=
  ((b.data, b.readErr), { b with data := [] })

/-- Go `Body.Close()`: the error returned and the stream after the call. -/
def Body.Close (b : Body) : Option String × Body :=
  (b.closeErr, { b with closed := true })

/-- Go `io.NopCloser(bytes.NewReader(b))`: a fresh, unread and open reader over
`b` that never fails to read or close. -/
def io.NopCloser (b : Bytes) : Body := ⟨b, none, none, false⟩

/-- The fields of Go `http.Request` that the program reads or writes. A `nil`
body is `none`. -/
structure Request where
  Method : String
  URL : URL
  Header : Header
  Body : Option Body
  Host : String

/-- The fields of Go `http.Response` that the program reads or writes. -/
structure Response where
  StatusCode : Int
  Header : Header
  Body : Body
  Request : Option Request

/-- Go `CachedResponse`: a cached version of an HTTP response. -/
structure CachedResponse where
  StatusCode : Int
  Header : Header
  Body : Bytes

/-- Go `(*CachedResponse).ToHTTPResponse`. -/
def CachedResponse.ToHTTPResponse (cr : CachedResponse) (req : Request) : Response :=
  { StatusCode := cr.StatusCode
    Header := cr.Header.Clone
    Body := io.NopCloser cr.Body
    Request := some req }

/-! ## The in-memory cache (`github.com/patrickmn/go-cache`) -/

/-- A value held by the cache. Go stores an `interface{}`; the transport only
ever stores a `*CachedResponse`, any value of another dynamic type is `other`. -/
inductive Object where
  | cachedResponse (cr : CachedResponse)
  | other (tag : Nat)

/-- Go-cache `Item`: the stored object and its expiry instant in Unix
nanoseconds, `0` (or less) for an item that never expires. -/
structure Item where
  Object : Object
  Expiration : Int

/-- Modelled from the spec: the go-cache `Cache` behind `InMemoryCache` (an
external library, absent from the repository), a map from key to item with a
default time-to-live in nanoseconds. -/
structure Cache where
  defaultExpiration : Int
  items : String → Option Item

/-- Go `time.Minute`, in nanoseconds. -/
def time.Minute : Int := 60000000000

/-- Modelled from the spec: go-cache `New(5*time.Minute, 10*time.Minute)`, the
initial value of `InMemoryCache` set by `init` in `cache/cache.go`. -/
def InMemoryCache : Cache := ⟨5 * time.Minute, fun _ => none⟩

/-- Modelled from the spec: go-cache `Get` (section 4.1, `get(key)`), not
found when the key is absent or its entry has expired at instant `now`. -/
def Cache.Get (c : Cache) (k : String) (now : Int) : Option Object :=
  match c.items k with
  | none => none
  | some item =>
    if item.Expiration > 0 ∧ now > item.Expiration then none else some item.Object

/-- Modelled from the spec: go-cache `Set` (section 4.1, `set(key, entry, ttl)`),
inserts or replaces the entry of `k`, which expires `d` after `now`; `d = 0`
stands for the default time-to-live and a negative `d` for no expiry. -/
def Cache.Set (c : Cache) (k : String) (x : Object) (d : Int) (now : Int) : Cache :=
  let d := if d = 0 then c.defaultExpiration else d
  let e := if d > 0 then now + d else 0
  { c with items := fun j => if j = k then some ⟨x, e⟩ else c.items j }

/-- Modelled from the spec: go-cache `Flush` (section 4.1, `flush()`), removes
all entries. -/
def Cache.Flush (c : Cache) : Cache := { c with items := fun _ => none }

/-- Go `ClearCache` of `cache/cache.go`: flushes all the items from the cache;
nothing happens when `InMemoryCache` is `nil` (`none`). -/
def ClearCache (c : Option Cache) : Option Cache :=
  match c with
  | none => none
  | some c => some c.Flush

/-! ## The caching transport -/

/-- What the transport runs against: the wrapped `http.RoundTripper` (`forward`,
which answers a request with a response or an error and moves the world on), the
clock, and the two `net/url` functions the transport calls, `URL.String` and
`URL.Parse`. -/
structure Env (σ : Type) where
  forward : Request → σ → Except String Response × σ
  now : σ → Int
  urlString : URL → String
  urlParse : URL → String → Except String URL

/-- One observable step of `RoundTrip`. -/
inductive Event where
  | lookup (key : String)
  | forward (req : Request) (res : Except String Response)
  | store (key : String) (entry : CachedResponse)

/-- Is the event a cache lookup? -/
def Event.isLookup : Event → Bool
  | .lookup _ => true
  | _ => false

/-- Is the event a call of the wrapped forwarder? -/
def Event.isForward : Event → Bool
  | .forward _ _ => true
  | _ => false

/-- Is the event a cache store? -/
def Event.isStore : Event → Bool
  | .store _ _ => true
  | _ => false

/-- Number of calls of the wrapped forwarder in a trace. -/
def forwardCount (tr : List Event) : Nat := (tr.filter Event.isForward).length

/-- Go `isCacheable`: checks whether the response should be cached by
inspecting Cache-Control. -/
def isCacheable (header : Header) : Bool :=
  let cacheControl := header.Get "Cache-Control"
  if strings.Contains cacheControl "no-cache" || strings.Contains cacheControl "no-store" then
    false
  else
    true

/-- State at the end of the redirect-follow loop: the request as rewritten so
far, the last response or the forwarding error, the world, and the forwards made. -/
structure Followed (σ : Type) where
  req : Request
  result : Except String Response
  world : σ
  trace : List Event

/-- The request rewritten for one redirect step: for a 303 See Other the method
becomes GET and the body is dropped, then the URL becomes the resolved location. -/
def redirectRequest (req : Request) (resp : Response) (newURL : URL) : Request :=
  let req := if resp.StatusCode = 303 then { req with Method := "GET", Body := none } else req
  { req with URL := newURL }

/-- The redirect-follow loop of `RoundTrip`. `remaining` is `10 - redirectCount`,
so that `redirectCount < 10` reads `remaining = n + 1`. -/
def followRedirects {σ : Type} (env : Env σ) :
    Nat → Request → Response → σ → Followed σ
  | 0, req, resp, s => ⟨req, .ok resp, s, []⟩
  | n + 1, req, resp, s =>
    if resp.StatusCode ≥ 300 ∧ resp.StatusCode < 400 then
      let location := resp.Header.Get "Location"
      if location = "" then ⟨req, .ok resp, s, []⟩
      else
        match env.urlParse req.URL location with
        | .error _ => ⟨req, .ok resp, s, []⟩
        | .ok newURL =>
          let req := redirectRequest req resp newURL
          match env.forward req s with
          | (.error err, s) => ⟨req, .error err, s, [.forward req (.error err)]⟩
          | (.ok resp, s) =>
            let r := followRedirects env n req resp s
            { r with trace := .forward req (.ok resp) :: r.trace }
    else ⟨req, .ok resp, s, []⟩

/-- Result of one `RoundTrip` call: the returned pair `(resp, err)`, the cache
and world after the call, the request as the call left it, and the trace. -/
structure Outcome (σ : Type) where
  resp : Option Response
  err : Option String
  cache : Cache
  world : σ
  req : Request
  trace : List Event

/-- The forwarding part of `RoundTrip`, from the first forward to the end of
the redirect-follow loop: the final response or the forwarding error. -/
def forwardFinal {σ : Type} (env : Env σ) (req : Request) (s : σ) : Followed σ :=
  match env.forward req s with
  | (.error err, s) => ⟨req, .error err, s, [.forward req (.error err)]⟩
  | (.ok resp, s) =>
    let r := followRedirects env 10 req resp s
    { r with trace := .forward req (.ok resp) :: r.trace }

/-- The end of `RoundTrip`, from "Now we have the final response": cache the
final response if appropriate and mark it as missed. Reading and closing work
on the stream held by `resp.Body`: after them the response holds the drained,
closed stream, which "Replace the body for downstream read" then replaces with
a fresh reader over the bytes read. -/
def cacheFinal {σ : Type} (env : Env σ) (cache : Cache) (originalKey : String)
    (req : Request) (resp : Response) (s : σ) (tr : List Event) : Outcome σ :=
  if isCacheable resp.Header then
    match io.ReadAll resp.Body with
    | ((_, some err), _) => ⟨none, some err, cache, s, req, tr⟩
    | ((bodyBytes, none), body) =>
      match body.Close with
      | (some err, _) => ⟨none, some err, cache, s, req, tr⟩
      | (none, body) =>
        let resp := { resp with Body := body }
        let cachedResp : CachedResponse :=
          { StatusCode := resp.StatusCode, Header := resp.Header.Clone, Body := bodyBytes }
        let cache := cache.Set originalKey (.cachedResponse cachedResp) (5 * time.Minute) (env.now s)
        let resp := { resp with Body := io.NopCloser bodyBytes }
        ⟨some { resp with Header := resp.Header.Set "X-Cache" "MISS" }, none, cache, s, req,
          tr ++ [.store originalKey cachedResp]⟩
  else
    ⟨some { resp with Header := resp.Header.Set "X-Cache" "MISS" }, none, cache, s, req, tr⟩

/-- The code of `RoundTrip` from the label `performRequest` on: forward, follow
redirects, cache the final response, mark it as missed. `tr` is the trace of
what ran before the label. -/
def performRequest {σ : Type} (env : Env σ) (cache : Cache) (originalKey : String)
    (req : Request) (s : σ) (tr : List Event) : Outcome σ :=
  let f := forwardFinal env req s
  match f.result with
  | .error err => ⟨none, some err, cache, f.world, f.req, tr ++ f.trace⟩
  | .ok resp => cacheFinal env cache originalKey f.req resp f.world (tr ++ f.trace)

/-- The cache key of a request: `req.Method + ":" + req.URL.String()`. -/
def originalKey {σ : Type} (env : Env σ) (req : Request) : String :=
  req.Method ++ ":" ++ env.urlString req.URL

/-- Go `(*CachingTransport).RoundTrip`: checks the cache for a response before
forwarding the request, and follows redirect responses (up to a limit). -/
def RoundTrip {σ : Type} (env : Env σ) (cache : Cache) (req : Request) (s : σ) : Outcome σ :=
  let originalKey := originalKey env req
  if strings.Contains req.URL.RawQuery "bypass-cache=true" then
    performRequest env cache originalKey req s []
  else
    match cache.Get originalKey (env.now s) with
    | some (.cachedResponse cachedResp) =>
      let resp := cachedResp.ToHTTPResponse req
      ⟨some { resp with Header := resp.Header.Set "X-Cache" "HIT" }, none, cache, s, req,
        [.lookup originalKey]⟩
    | _ => performRequest env cache originalKey req s [.lookup originalKey]

/-! ## The response rewriter (`proxy/proxy.go`) -/

/-- The hop-by-hop headers removed by `ModifyResponse`. -/
def hopByHopHeaders : List String :=
  ["Connection", "Keep-Alive", "Proxy-Authenticate",
    "Proxy-Authorization", "TE", "Trailer", "Transfer-Encoding", "Upgrade"]

/-- One iteration of the removal loop of `ModifyResponse`: the header is
deleted when `Get` returns a non-empty value for it. -/
def removeHopByHop (hd : Header) (h : String) : Header :=
  if hd.Get h ≠ "" then hd.Del h else hd

/-- The `ModifyResponse` callback of `StartServer`: remove hop-by-hop headers
and force the X-Cache header. It always returns a nil error. -/
def ModifyResponse (resp : Response) : Response :=
  let header := hopByHopHeaders.foldl removeHopByHop resp.Header
  let xcache := header.Get "X-Cache"
  let xcache := if xcache = "" then "MISS" else xcache
  { resp with Header := header.Set "X-Cache" xcache }

/-! ## Auxiliary definitions for the statements -/

/-- Does the redirect-follow loop take a step on `resp`: a 3xx status with a
non-empty `Location` that resolves against the request URL. -/
def takesStep {σ : Type} (env : Env σ) (req : Request) (resp : Response) : Option URL :=
  if resp.StatusCode ≥ 300 ∧ resp.StatusCode < 400 then
    if resp.Header.Get "Location" = "" then none
    else
      match env.urlParse req.URL (resp.Header.Get "Location") with
      | .error _ => none
      | .ok newURL => some newURL
  else none

/-- The entry that serves the request from the cache, if any: `none` on a
bypass request, on an absent or expired entry, and on an entry that is not a
`CachedResponse`. -/
def cacheHit {σ : Type} (env : Env σ) (cache : Cache) (req : Request) (s : σ) :
    Option CachedResponse :=
  if strings.Contains req.URL.RawQuery "bypass-cache=true" then none
  else
    match cache.Get (originalKey env req) (env.now s) with
    | some (.cachedResponse cr) => some cr
    | _ => none

/-- The trace of `RoundTrip` before it forwards or returns a hit: the cache
lookup, unless the request bypasses the cache. -/
def lookupTrace {σ : Type} (env : Env σ) (req : Request) : List Event :=
  if strings.Contains req.URL.RawQuery "bypass-cache=true" then []
  else [.lookup (originalKey env req)]

/-! ## Sample environments for the concrete runs -/

/-- A sample `URL.String`: scheme, host, path and, when non-empty, the raw query. -/
def sampleURLString (u : URL) : String :=
  u.Scheme ++ "://" ++ u.Host ++ u.Path ++ (if u.RawQuery = "" then "" else "?" ++ u.RawQuery)

/-- A sample `URL.Parse`: resolves an absolute-path reference against the
base URL, and fails on a location that holds a percent sign. -/
def sampleParse (u : URL) (loc : String) : Except String URL :=
  if loc.toList.contains '%' then .error "invalid URL escape"
  else .ok { u with Path := loc, RawQuery := "" }

/-- A header map with one key. -/
def Header.single (k : String) (vs : List String) : Header :=
  ⟨fun j => if j = k then some vs else none⟩

/-- An origin that answers every request with `resp`; the world counts the
forwards and the clock reads the world. -/
def originAlways (resp : Response) : Env Nat :=
  ⟨fun _ s => (.ok resp, s + 1), fun s => (s : Int), sampleURLString, sampleParse⟩

/-- A 200 response with a plain-text body. -/
def okResponse : Response :=
  ⟨200, Header.single "Content-Type" ["text/plain"], io.NopCloser [104, 105], none⟩

/-- The request `GET http://origin/a`. -/
def getA : Request := ⟨"GET", ⟨"http", "origin", "/a", ""⟩, Header.empty, none, "origin"⟩

/-- The request `GET http://origin/a?bypass-cache=true`. -/
def getBypass : Request :=
  ⟨"GET", ⟨"http", "origin", "/a", "bypass-cache=true"⟩, Header.empty, none, "origin"⟩

/-- Has the outcome a response whose `X-Cache` header reads `v`? -/
def Outcome.xCacheIs {σ : Type} (o : Outcome σ) (v : String) : Bool :=
  match o.resp with
  | some r => r.Header.Values "X-Cache" == [v]
  | none => false

/-- A 200 response with two `Cache-Control` header lines, `public` and `no-store`. -/
def twoCacheControl : Response :=
  ⟨200, Header.single "Cache-Control" ["public", "no-store"], io.NopCloser [104, 105], none⟩

/-- A 200 response with the single header line `Cache-Control: no-store`. -/
def noStoreResponse : Response :=
  ⟨200, Header.single "Cache-Control" ["no-store"], io.NopCloser [104, 105], none⟩

/-- The redirect response `302 Location: /b`. -/
def foundB : Response := ⟨302, Header.single "Location" ["/b"], io.NopCloser [], none⟩

/-- An origin that answers a request for path `/a` with `302 Location: /b` and
any other request with `final`. -/
def originRedirect (final : Response) : Env Nat :=
  ⟨fun req s => (if req.URL.Path = "/a" then .ok foundB else .ok final, s + 1),
    fun s => (s : Int), sampleURLString, sampleParse⟩

/-- A 200 response whose body breaks off while it is read. -/
def truncatedResponse : Response :=
  ⟨200, Header.single "Content-Type" ["text/plain"], ⟨[88], some "unexpected EOF", none, false⟩, none⟩

/-- The final response of the outcome of the forwarding part, as status code
and cacheability, when there is one. -/
def Followed.finalStatus {σ : Type} (f : Followed σ) : Option (Int × Bool) :=
  match f.result with
  | .ok resp => some (resp.StatusCode, isCacheable resp.Header)
  | .error _ => none

/-- The 303 rule between two consecutive events of a trace: when a forward of
`req` was answered by a 303 response and the next event is the forward of
`next`, then `next` is a GET without body for the resolved location, with the
headers and host of `req`. -/
def seeOtherRule {σ : Type} (env : Env σ) : Event → Event → Prop
  | .forward req (.ok resp), .forward next _ =>
    resp.StatusCode = 303 →
      next.Method = "GET" ∧ next.Body = none
        ∧ env.urlParse req.URL (resp.Header.Get "Location") = .ok next.URL
        ∧ next.Header = req.Header ∧ next.Host = req.Host
  | _, _ => True

/-- The response `303 Location: /done`. -/
def seeOtherDone : Response := ⟨303, Header.single "Location" ["/done"], io.NopCloser [], none⟩

/-- An origin that answers a POST with `303 Location: /done` and any other
request with 200. -/
def originSeeOther : Env Nat :=
  ⟨fun req s => (if req.Method = "POST" then .ok seeOtherDone else .ok okResponse, s + 1),
    fun s => (s : Int), sampleURLString, sampleParse⟩

/-- The request `POST http://origin/form` with a body. -/
def postForm : Request :=
  ⟨"POST", ⟨"http", "origin", "/form", ""⟩, Header.empty, some (io.NopCloser [97, 61, 49]), "origin"⟩

/-- A response on which the redirect-follow loop always takes a step: a 3xx
status and a non-empty `Location` that resolves against every URL. -/
def redirecting {σ : Type} (env : Env σ) (resp : Response) : Prop :=
  (resp.StatusCode ≥ 300 ∧ resp.StatusCode < 400) ∧ resp.Header.Get "Location" ≠ ""
    ∧ ∀ u, ∃ v, env.urlParse u (resp.Header.Get "Location") = .ok v

/-- The forwarder answers every request, in every world, with a 3xx response
carrying a parseable non-empty `Location`. -/
def alwaysRedirects {σ : Type} (env : Env σ) : Prop :=
  ∀ req s, ∃ resp s2, env.forward req s = (.ok resp, s2) ∧ redirecting env resp

/-- The redirect response `302 Location: /next` with an empty body. -/
def foundNext : Response := ⟨302, Header.single "Location" ["/next"], io.NopCloser [], none⟩

/-- The redirect response `302 Location: /next` whose body breaks off while it is read. -/
def foundNextTruncated : Response :=
  ⟨302, Header.single "Location" ["/next"], ⟨[], some "unexpected EOF", none, false⟩, none⟩

/-- A 101 response with the two header lines `Connection:` (empty) and
`Connection: Upgrade`. -/
def emptyConnection : Response :=
  ⟨101, Header.single "Connection" ["", "Upgrade"], io.NopCloser [], none⟩

/-- A response with the header lines `Upgrade:` (empty value) and `X-Cache: HIT`. -/
def emptyUpgrade : Response :=
  ⟨200, ⟨fun k => if k = "Upgrade" then some [""] else if k = "X-Cache" then some ["HIT"] else none⟩,
    io.NopCloser [], none⟩

/-- An origin whose every forward fails with `connection refused`. -/
def originDown : Env Nat :=
  ⟨fun _ s => (.error "connection refused", s + 1), fun s => (s : Int), sampleURLString, sampleParse⟩

/-- A 200 response marked `Cache-Control: no-cache` whose body would fail to
read and to close. -/
def noCacheBroken : Response :=
  ⟨200, Header.single "Cache-Control" ["no-cache"], ⟨[1, 2], some "reset", some "closed", false⟩, none⟩

/-- The redirect response `302` without a `Location` header. -/
def foundNowhere : Response := ⟨302, Header.empty, io.NopCloser [111], none⟩

/-- The redirect response `302` without a `Location` header whose body breaks
off while it is read. -/
def foundNowhereTruncated : Response :=
  ⟨302, Header.empty, ⟨[111], some "unexpected EOF", none, false⟩, none⟩

/-- The redirect response `301 Location: /%zz`, a location that does not parse. -/
def movedBadLocation : Response :=
  ⟨301, Header.single "Location" ["/%zz"], io.NopCloser [], none⟩

/-- An origin that answers a POST with `303 Location: /done` and any other
request with `final`. -/
def originSeeOtherThen (final : Response) : Env Nat :=
  ⟨fun req s => (if req.Method = "POST" then .ok seeOtherDone else .ok final, s + 1),
    fun s => (s : Int), sampleURLString, sampleParse⟩

/-- A 3xx response whose `Location` is absent or empty, or does not parse
against the URL of `req`. -/
def badLocation {σ : Type} (env : Env σ) (req : Request) (resp : Response) : Prop :=
  (resp.StatusCode ≥ 300 ∧ resp.StatusCode < 400)
    ∧ (resp.Header.Get "Location" = ""
      ∨ ∃ e, env.urlParse req.URL (resp.Header.Get "Location") = .error e)

/-- The `director` closure of `StartServer`: rewrites the request to forward it
to the origin, removes the proxy-specific headers and uses the origin's host. -/
def director (originURL : URL) (req : Request) : Request :=
  let url := { req.URL with Scheme := originURL.Scheme, Host := originURL.Host }
  let header := req.Header.Del "X-Forwarded-For"
  let header := header.Del "X-Forwarded-Host"
  let header := header.Del "X-Forwarded-Proto"
  let header := header.Del "Via"
  let header := header.Del "Forwarded"
  { req with URL := url, Header := header, Host := originURL.Host }

/-- The proxy-specific request headers removed by the director. -/
def proxyHeaders : List String :=
  ["X-Forwarded-For", "X-Forwarded-Host", "X-Forwarded-Proto", "Via", "Forwarded"]

/-- An inbound request `GET http://localhost:3000/items?page=2` carrying `Via`,
`X-Forwarded-For` and `Accept` headers. -/
def inboundRequest : Request :=
  ⟨"GET", ⟨"http", "localhost:3000", "/items", "page=2"⟩,
    ⟨fun k => if k = "Via" then some ["1.1 edge"]
      else if k = "X-Forwarded-For" then some ["", "10.0.0.1"]
      else if k = "Accept" then some ["*/*"] else none⟩,
    none, "localhost:3000"⟩

/-- The first value under the raw key `k`, and `""` when the key is absent or
its slice is empty. -/
def Header.first (h : Header) (k : String) : String :=
  match h.entries k with
  | some (v :: _) => v
  | _ => ""

/-- The body bytes of the cached response stored under `k`, if there is one. -/
def Cache.cachedBody (c : Cache) (k : String) : Option Bytes :=
  match c.items k with
  | some ⟨.cachedResponse cr, _⟩ => some cr.Body
  | _ => none

/-! ## Lemmas on headers and substrings -/

theorem containsChars_iff (s sub : List Char) : containsChars s sub = true ↔ sub <:+: s := by
  induction s with
  | nil => cases sub <;> simp [containsChars, List.isPrefixOf]
  | cons c t ih =>
    rw [containsChars, Bool.or_eq_true, ih, List.infix_cons_iff, List.isPrefixOf_iff_prefix]

theorem Header.Clone_eq (h : Header) : h.Clone = h := rfl

theorem Header.Get_Set_self (h : Header) (k v : String) : (h.Set k v).Get k = v := by
  simp [Header.Get, Header.Set]

theorem Header.Values_Set_self (h : Header) (k v : String) : (h.Set k v).Values k = [v] := by
  simp [Header.Values, Header.Set]

theorem isCacheable_eq (h : Header) :
    isCacheable h = !(strings.Contains (h.Get "Cache-Control") "no-cache"
      || strings.Contains (h.Get "Cache-Control") "no-store") := by
  show (if (strings.Contains (h.Get "Cache-Control") "no-cache"
      || strings.Contains (h.Get "Cache-Control") "no-store") = true then false else true) = _
  cases (strings.Contains (h.Get "Cache-Control") "no-cache"
      || strings.Contains (h.Get "Cache-Control") "no-store") <;> rfl

theorem isCacheable_eq_false_iff (h : Header) :
    isCacheable h = false ↔
      ("no-cache".toList <:+: (h.Get "Cache-Control").toList
        ∨ "no-store".toList <:+: (h.Get "Cache-Control").toList) := by
  rw [← containsChars_iff, ← containsChars_iff, isCacheable_eq]
  unfold strings.Contains
  generalize containsChars (h.Get "Cache-Control").toList "no-cache".toList = a
  generalize containsChars (h.Get "Cache-Control").toList "no-store".toList = b
  cases a <;> cases b <;> simp

theorem removeHopByHop_entries (hd : Header) (h k : String) (hk : k ≠ CanonicalMIMEHeaderKey h) :
    (removeHopByHop hd h).entries k = hd.entries k := by
  unfold removeHopByHop
  split
  · simp [Header.Del, hk]
  · rfl

theorem foldl_removeHopByHop_entries (l : List String) (hd : Header) (k : String)
    (hk : ∀ h ∈ l, k ≠ CanonicalMIMEHeaderKey h) :
    (l.foldl removeHopByHop hd).entries k = hd.entries k := by
  induction l generalizing hd with
  | nil => rfl
  | cons a l ih =>
    rw [List.foldl_cons, ih _ (fun h hh => hk h (List.mem_cons_of_mem _ hh))]
    exact removeHopByHop_entries hd a k (hk a (List.mem_cons_self _ _))

theorem followRedirects_zero {σ : Type} (env : Env σ) (req : Request) (resp : Response) (s : σ) :
    followRedirects env 0 req resp s = ⟨req, .ok resp, s, []⟩ := rfl

theorem followRedirects_stop {σ : Type} (env : Env σ) (n : Nat) (req : Request)
    (resp : Response) (s : σ) (h : takesStep env req resp = none) :
    followRedirects env n req resp s = ⟨req, .ok resp, s, []⟩ := by
  cases n with
  | zero => rfl
  | succ n =>
    unfold takesStep at h
    unfold followRedirects
    by_cases h1 : resp.StatusCode ≥ 300 ∧ resp.StatusCode < 400
    · rw [if_pos h1] at h ⊢
      by_cases h2 : resp.Header.Get "Location" = ""
      · simp only [h2, if_true]
      · rw [if_neg h2] at h
        simp only [h2, if_false]
        cases h3 : env.urlParse req.URL (resp.Header.Get "Location") with
        | error e => rfl
        | ok u => rw [h3] at h; cases h
    · rw [if_neg h1]

theorem followRedirects_step {σ : Type} (env : Env σ) (n : Nat) (req : Request)
    (resp : Response) (s : σ) (newURL : URL) (h : takesStep env req resp = some newURL) :
    followRedirects env (n + 1) req resp s =
      match env.forward (redirectRequest req resp newURL) s with
      | (.error err, s) => ⟨redirectRequest req resp newURL, .error err, s,
          [.forward (redirectRequest req resp newURL) (.error err)]⟩
      | (.ok resp2, s) =>
        { followRedirects env n (redirectRequest req resp newURL) resp2 s with
          trace := .forward (redirectRequest req resp newURL) (.ok resp2)
            :: (followRedirects env n (redirectRequest req resp newURL) resp2 s).trace } := by
  unfold takesStep at h
  conv => lhs; unfold followRedirects
  by_cases h1 : resp.StatusCode ≥ 300 ∧ resp.StatusCode < 400
  · rw [if_pos h1] at h ⊢
    by_cases h2 : resp.Header.Get "Location" = ""
    · rw [if_pos h2] at h; cases h
    · rw [if_neg h2] at h
      simp only [h2, if_false]
      cases h3 : env.urlParse req.URL (resp.Header.Get "Location") with
      | error e => rw [h3] at h; cases h
      | ok u =>
        rw [h3] at h
        cases h
        rfl
  · rw [if_neg h1] at h; cases h

theorem followRedirects_trace {σ : Type} (env : Env σ) (n : Nat) (req : Request)
    (resp : Response) (s : σ) :
    (∀ ev ∈ (followRedirects env n req resp s).trace, ev.isForward = true)
      ∧ (followRedirects env n req resp s).trace.length ≤ n := by
  induction n generalizing req resp s with
  | zero => simp [followRedirects]
  | succ n ih =>
    cases h : takesStep env req resp with
    | none => simp [followRedirects_stop env _ req resp s h]
    | some newURL =>
      rw [followRedirects_step env n req resp s newURL h]
      rcases hf : env.forward (redirectRequest req resp newURL) s with ⟨res, s2⟩
      cases res with
      | error e => simp [Event.isForward]
      | ok resp2 =>
        have h2 := ih (redirectRequest req resp newURL) resp2 s2
        simp only [List.mem_cons, List.length_cons]
        refine ⟨?_, by omega⟩
        rintro ev (rfl | hev)
        · rfl
        · exact h2.1 ev hev

theorem forwardFinal_trace {σ : Type} (env : Env σ) (req : Request) (s : σ) :
    (∀ ev ∈ (forwardFinal env req s).trace, ev.isForward = true)
      ∧ (forwardFinal env req s).trace.length ≤ 11
      ∧ (forwardFinal env req s).trace.head? = some (.forward req (env.forward req s).1) := by
  unfold forwardFinal
  split
  · rename_i h; simp [Event.isForward, h]
  · rename_i resp s2 h
    have := followRedirects_trace env 10 req resp s2
    simp only [List.mem_cons, List.length_cons, h, List.head?_cons, and_true]
    refine ⟨?_, by omega⟩
    rintro ev (rfl | hev)
    · rfl
    · exact this.1 ev hev

theorem forwardCount_of_all_forward (tr : List Event) (h : ∀ ev ∈ tr, ev.isForward = true) :
    forwardCount tr = tr.length := by
  unfold forwardCount
  rw [List.filter_eq_self.mpr h]

theorem forwardCount_append (a b : List Event) :
    forwardCount (a ++ b) = forwardCount a + forwardCount b := by
  simp [forwardCount]

theorem RoundTrip_of_hit {σ : Type} (env : Env σ) (cache : Cache) (req : Request) (s : σ)
    (cr : CachedResponse) (h : cacheHit env cache req s = some cr) :
    RoundTrip env cache req s =
      ⟨some { cr.ToHTTPResponse req with Header := (cr.ToHTTPResponse req).Header.Set "X-Cache" "HIT" },
        none, cache, s, req, [.lookup (originalKey env req)]⟩ := by
  unfold cacheHit at h
  unfold RoundTrip
  dsimp only
  by_cases hb : strings.Contains req.URL.RawQuery "bypass-cache=true" = true
  · rw [if_pos hb] at h; cases h
  · rw [if_neg hb] at h ⊢
    cases hget : cache.Get (originalKey env req) (env.now s) with
    | none => rw [hget] at h; cases h
    | some o =>
      rw [hget] at h
      cases o with
      | cachedResponse cr2 => cases h; rfl
      | other t => cases h

theorem RoundTrip_of_miss {σ : Type} (env : Env σ) (cache : Cache) (req : Request) (s : σ)
    (h : cacheHit env cache req s = none) :
    RoundTrip env cache req s =
      performRequest env cache (originalKey env req) req s (lookupTrace env req) := by
  unfold cacheHit at h
  unfold RoundTrip lookupTrace
  dsimp only
  by_cases hb : strings.Contains req.URL.RawQuery "bypass-cache=true" = true
  · rw [if_pos hb, if_pos hb]
  · rw [if_neg hb] at h
    rw [if_neg hb, if_neg hb]
    cases hget : cache.Get (originalKey env req) (env.now s) with
    | none => rfl
    | some o =>
      rw [hget] at h
      cases o with
      | cachedResponse cr2 => cases h
      | other t => rfl

theorem performRequest_of_error {σ : Type} (env : Env σ) (cache : Cache) (key : String)
    (req : Request) (s : σ) (tr : List Event) (e : String)
    (h : (forwardFinal env req s).result = .error e) :
    performRequest env cache key req s tr =
      ⟨none, some e, cache, (forwardFinal env req s).world, (forwardFinal env req s).req,
        tr ++ (forwardFinal env req s).trace⟩ := by
  unfold performRequest
  simp only [h]

theorem performRequest_of_ok {σ : Type} (env : Env σ) (cache : Cache) (key : String)
    (req : Request) (s : σ) (tr : List Event) (resp : Response)
    (h : (forwardFinal env req s).result = .ok resp) :
    performRequest env cache key req s tr =
      cacheFinal env cache key (forwardFinal env req s).req resp (forwardFinal env req s).world
        (tr ++ (forwardFinal env req s).trace) := by
  unfold performRequest
  simp only [h]

theorem cacheFinal_not_cacheable {σ : Type} (env : Env σ) (cache : Cache) (key : String)
    (req : Request) (resp : Response) (s : σ) (tr : List Event)
    (h : isCacheable resp.Header = false) :
    cacheFinal env cache key req resp s tr =
      ⟨some { resp with Header := resp.Header.Set "X-Cache" "MISS" }, none, cache, s, req, tr⟩ := by
  unfold cacheFinal
  simp [h]

theorem cacheFinal_read_error {σ : Type} (env : Env σ) (cache : Cache) (key : String)
    (req : Request) (resp : Response) (s : σ) (tr : List Event) (e : String)
    (h : isCacheable resp.Header = true) (hr : (io.ReadAll resp.Body).1.2 = some e) :
    cacheFinal env cache key req resp s tr = ⟨none, some e, cache, s, req, tr⟩ := by
  unfold cacheFinal
  simp only [io.ReadAll] at hr ⊢
  simp [h, hr]

theorem cacheFinal_close_error {σ : Type} (env : Env σ) (cache : Cache) (key : String)
    (req : Request) (resp : Response) (s : σ) (tr : List Event) (e : String)
    (h : isCacheable resp.Header = true) (hr : (io.ReadAll resp.Body).1.2 = none)
    (hc : (io.ReadAll resp.Body).2.Close.1 = some e) :
    cacheFinal env cache key req resp s tr = ⟨none, some e, cache, s, req, tr⟩ := by
  unfold cacheFinal
  simp only [io.ReadAll, Body.Close] at hr hc ⊢
  simp [h, hr, hc]

theorem cacheFinal_stored {σ : Type} (env : Env σ) (cache : Cache) (key : String)
    (req : Request) (resp : Response) (s : σ) (tr : List Event)
    (h : isCacheable resp.Header = true) (hr : (io.ReadAll resp.Body).1.2 = none)
    (hc : (io.ReadAll resp.Body).2.Close.1 = none) :
    cacheFinal env cache key req resp s tr =
      ⟨some { resp with Body := io.NopCloser (io.ReadAll resp.Body).1.1,
                        Header := resp.Header.Set "X-Cache" "MISS" }, none,
        cache.Set key (.cachedResponse ⟨resp.StatusCode, resp.Header, (io.ReadAll resp.Body).1.1⟩)
          (5 * time.Minute) (env.now s), s, req,
        tr ++ [.store key ⟨resp.StatusCode, resp.Header, (io.ReadAll resp.Body).1.1⟩]⟩ := by
  unfold cacheFinal
  simp only [io.ReadAll, Body.Close] at hr hc ⊢
  simp [h, hr, hc, Header.Clone_eq]

/-- The five ways a `RoundTrip` call can go, each with the outcome it yields. -/
theorem RoundTrip_cases {σ : Type} (env : Env σ) (cache : Cache) (req : Request) (s : σ) :
    (∃ cr, cacheHit env cache req s = some cr ∧
      RoundTrip env cache req s =
        ⟨some { cr.ToHTTPResponse req with
                Header := (cr.ToHTTPResponse req).Header.Set "X-Cache" "HIT" },
          none, cache, s, req, [.lookup (originalKey env req)]⟩)
    ∨ (cacheHit env cache req s = none ∧ ∃ e, (forwardFinal env req s).result = .error e ∧
      RoundTrip env cache req s =
        ⟨none, some e, cache, (forwardFinal env req s).world, (forwardFinal env req s).req,
          lookupTrace env req ++ (forwardFinal env req s).trace⟩)
    ∨ (cacheHit env cache req s = none ∧ ∃ resp, (forwardFinal env req s).result = .ok resp ∧
      isCacheable resp.Header = false ∧
      RoundTrip env cache req s =
        ⟨some { resp with Header := resp.Header.Set "X-Cache" "MISS" }, none, cache,
          (forwardFinal env req s).world, (forwardFinal env req s).req,
          lookupTrace env req ++ (forwardFinal env req s).trace⟩)
    ∨ (cacheHit env cache req s = none ∧ ∃ resp e, (forwardFinal env req s).result = .ok resp ∧
      isCacheable resp.Header = true ∧
      ((io.ReadAll resp.Body).1.2 = some e
        ∨ ((io.ReadAll resp.Body).1.2 = none ∧ (io.ReadAll resp.Body).2.Close.1 = some e)) ∧
      RoundTrip env cache req s =
        ⟨none, some e, cache, (forwardFinal env req s).world, (forwardFinal env req s).req,
          lookupTrace env req ++ (forwardFinal env req s).trace⟩)
    ∨ (cacheHit env cache req s = none ∧ ∃ resp, (forwardFinal env req s).result = .ok resp ∧
      isCacheable resp.Header = true ∧ (io.ReadAll resp.Body).1.2 = none ∧
      (io.ReadAll resp.Body).2.Close.1 = none ∧
      RoundTrip env cache req s =
        ⟨some { resp with Body := io.NopCloser (io.ReadAll resp.Body).1.1,
                          Header := resp.Header.Set "X-Cache" "MISS" }, none,
          cache.Set (originalKey env req)
            (.cachedResponse ⟨resp.StatusCode, resp.Header, (io.ReadAll resp.Body).1.1⟩)
            (5 * time.Minute) (env.now (forwardFinal env req s).world),
          (forwardFinal env req s).world, (forwardFinal env req s).req,
          (lookupTrace env req ++ (forwardFinal env req s).trace)
            ++ [.store (originalKey env req)
                  ⟨resp.StatusCode, resp.Header, (io.ReadAll resp.Body).1.1⟩]⟩) := by
  cases hh : cacheHit env cache req s with
  | some cr => exact Or.inl ⟨cr, rfl, RoundTrip_of_hit env cache req s cr hh⟩
  | none =>
    right
    rw [RoundTrip_of_miss env cache req s hh]
    cases hf : (forwardFinal env req s).result with
    | error e =>
      exact Or.inl ⟨rfl, e, rfl, performRequest_of_error env cache _ req s _ e hf⟩
    | ok resp =>
      right
      rw [performRequest_of_ok env cache _ req s _ resp hf]
      cases hc : isCacheable resp.Header with
      | false => exact Or.inl ⟨rfl, resp, rfl, hc, cacheFinal_not_cacheable env cache _ _ resp _ _ hc⟩
      | true =>
        right
        cases hr : (io.ReadAll resp.Body).1.2 with
        | some e =>
          exact Or.inl ⟨rfl, resp, e, rfl, hc, Or.inl hr,
            cacheFinal_read_error env cache _ _ resp _ _ e hc hr⟩
        | none =>
          cases hcl : (io.ReadAll resp.Body).2.Close.1 with
          | some e =>
            exact Or.inl ⟨rfl, resp, e, rfl, hc, Or.inr ⟨hr, hcl⟩,
              cacheFinal_close_error env cache _ _ resp _ _ e hc hr hcl⟩
          | none =>
            exact Or.inr ⟨rfl, resp, rfl, hc, hr, hcl,
              cacheFinal_stored env cache _ _ resp _ _ hc hr hcl⟩

/-- The outcome of a `RoundTrip` that is not served from the cache and whose
forwarding ends in the final response `p`, by cacheability of `p` and by the
success of reading and closing its body. -/
theorem RoundTrip_of_final {σ : Type} (env : Env σ) (cache : Cache) (req : Request) (s : σ)
    (p : Response) (hmiss : cacheHit env cache req s = none)
    (hfinal : (forwardFinal env req s).result = .ok p) :
    (isCacheable p.Header = false →
        RoundTrip env cache req s =
          ⟨some { p with Header := p.Header.Set "X-Cache" "MISS" }, none, cache,
            (forwardFinal env req s).world, (forwardFinal env req s).req,
            lookupTrace env req ++ (forwardFinal env req s).trace⟩)
      ∧ (isCacheable p.Header = true → (io.ReadAll p.Body).1.2 = none → (io.ReadAll p.Body).2.Close.1 = none →
          RoundTrip env cache req s =
            ⟨some { p with Body := io.NopCloser (io.ReadAll p.Body).1.1,
                           Header := p.Header.Set "X-Cache" "MISS" }, none,
              cache.Set (originalKey env req)
                (.cachedResponse ⟨p.StatusCode, p.Header, (io.ReadAll p.Body).1.1⟩)
                (5 * time.Minute) (env.now (forwardFinal env req s).world),
              (forwardFinal env req s).world, (forwardFinal env req s).req,
              (lookupTrace env req ++ (forwardFinal env req s).trace)
                ++ [.store (originalKey env req)
                      ⟨p.StatusCode, p.Header, (io.ReadAll p.Body).1.1⟩]⟩)
      ∧ (isCacheable p.Header = true → ∀ e,
          ((io.ReadAll p.Body).1.2 = some e
            ∨ ((io.ReadAll p.Body).1.2 = none ∧ (io.ReadAll p.Body).2.Close.1 = some e)) →
          RoundTrip env cache req s =
            ⟨none, some e, cache, (forwardFinal env req s).world, (forwardFinal env req s).req,
              lookupTrace env req ++ (forwardFinal env req s).trace⟩) := by
  rw [RoundTrip_of_miss env cache req s hmiss, performRequest_of_ok env cache _ req s _ p hfinal]
  refine ⟨?_, ?_, ?_⟩
  · intro hc
    exact cacheFinal_not_cacheable env cache _ _ p _ _ hc
  · intro hc hr hcl
    exact cacheFinal_stored env cache _ _ p _ _ hc hr hcl
  · intro hc e he
    rcases he with hr | ⟨hr, hcl⟩
    · exact cacheFinal_read_error env cache _ _ p _ _ e hc hr
    · exact cacheFinal_close_error env cache _ _ p _ _ e hc hr hcl

/-- C1, as stated, fails on a bypass URL: `GET http://origin/a?bypass-cache=true`
is forwarded and its response stored; an identical request that runs right
after, with the entry still in the cache, is forwarded again and answered with
`X-Cache: MISS`. -/
theorem C1_counterexample :
    ((RoundTrip (originAlways okResponse) InMemoryCache getBypass 0).trace.any Event.isStore = true
      ∧ (((RoundTrip (originAlways okResponse) InMemoryCache getBypass 0).cache.Get
          (originalKey (originAlways okResponse) getBypass) 1).isSome = true)
      ∧ forwardCount (RoundTrip (originAlways okResponse)
          (RoundTrip (originAlways okResponse) InMemoryCache getBypass 0).cache getBypass 1).trace = 1
      ∧ (RoundTrip (originAlways okResponse)
          (RoundTrip (originAlways okResponse) InMemoryCache getBypass 0).cache getBypass 1).xCacheIs "MISS"
          = true) := by
  decide

theorem not_store_of_forward (ev : Event) (h : ev.isForward = true) : ev.isStore = false := by
  cases ev <;> simp_all [Event.isForward, Event.isStore]

theorem not_lookup_of_forward (ev : Event) (h : ev.isForward = true) : ev.isLookup = false := by
  cases ev <;> simp_all [Event.isForward, Event.isLookup]

theorem lookupTrace_forward_no_store {σ : Type} (env : Env σ) (req : Request) (s : σ) :
    ∀ ev ∈ lookupTrace env req ++ (forwardFinal env req s).trace, ev.isStore = false := by
  intro ev hev
  rcases List.mem_append.mp hev with h | h
  · unfold lookupTrace at h
    split at h
    · cases h
    · rw [List.mem_singleton] at h
      subst h
      rfl
  · exact not_store_of_forward ev ((forwardFinal_trace env req s).1 ev h)

/-- A store event in the trace of `RoundTrip` pins the call down: the request
was not served from the cache, the final response was cacheable, its body was
read and closed without error, and the entry went in under the original key. -/
theorem RoundTrip_of_store_mem {σ : Type} (env : Env σ) (cache : Cache) (req : Request) (s : σ)
    (k : String) (entry : CachedResponse)
    (h : Event.store k entry ∈ (RoundTrip env cache req s).trace) :
    cacheHit env cache req s = none ∧ ∃ resp, (forwardFinal env req s).result = .ok resp ∧
      isCacheable resp.Header = true ∧ (io.ReadAll resp.Body).1.2 = none ∧
      (io.ReadAll resp.Body).2.Close.1 = none ∧ k = originalKey env req ∧
      entry = ⟨resp.StatusCode, resp.Header, (io.ReadAll resp.Body).1.1⟩ ∧
      RoundTrip env cache req s =
        ⟨some { resp with Body := io.NopCloser (io.ReadAll resp.Body).1.1,
                          Header := resp.Header.Set "X-Cache" "MISS" }, none,
          cache.Set (originalKey env req) (.cachedResponse entry)
            (5 * time.Minute) (env.now (forwardFinal env req s).world),
          (forwardFinal env req s).world, (forwardFinal env req s).req,
          (lookupTrace env req ++ (forwardFinal env req s).trace)
            ++ [.store (originalKey env req) entry]⟩ := by
  have hns := lookupTrace_forward_no_store env req s
  rcases RoundTrip_cases env cache req s with ⟨cr, _, heq⟩ | ⟨_, e, _, heq⟩ | ⟨_, resp, _, _, heq⟩ |
      ⟨_, resp, e, _, _, _, heq⟩ | ⟨hh, resp, hf, hc, hr, hcl, heq⟩
  · rw [heq] at h
    simp at h
  · rw [heq] at h
    exact absurd (hns _ h) (by simp [Event.isStore])
  · rw [heq] at h
    exact absurd (hns _ h) (by simp [Event.isStore])
  · rw [heq] at h
    exact absurd (hns _ h) (by simp [Event.isStore])
  · rw [heq] at h
    rcases List.mem_append.mp h with h1 | h1
    · exact absurd (hns _ h1) (by simp [Event.isStore])
    · rw [List.mem_singleton] at h1
      injection h1 with hk he
      subst hk he
      exact ⟨hh, resp, hf, hc, hr, hcl, rfl, rfl, heq⟩

theorem Cache.Get_Set_fresh (c : Cache) (k : String) (x : Object) (t now : Int)
    (c2 : Cache) (h2 : c2.items k = (c.Set k x (5 * time.Minute) t).items k)
    (h : now ≤ t + 5 * time.Minute) : c2.Get k now = some x := by
  have hm : (5 * time.Minute : Int) = 300000000000 := by decide
  unfold Cache.Get
  rw [h2]
  unfold Cache.Set
  simp only [hm, if_true]
  rw [hm] at h
  simp
  omega

theorem cacheHit_of_Get {σ : Type} (env : Env σ) (cache : Cache) (req : Request) (s : σ)
    (cr : CachedResponse)
    (hb : strings.Contains req.URL.RawQuery "bypass-cache=true" = false)
    (hg : cache.Get (originalKey env req) (env.now s) = some (.cachedResponse cr)) :
    cacheHit env cache req s = some cr := by
  unfold cacheHit
  rw [hb, hg]
  rfl

/-- C1 (amended): for two requests with the same method and the same URL string
whose raw query does not contain `bypass-cache=true`, if the first `RoundTrip`
stored its final response and the second runs while that entry is untouched and
within five minutes of the store, the second call makes no forward and returns
a response whose `X-Cache` header is the single value `HIT`. -/
theorem C1_second_request_is_hit {σ : Type} (env : Env σ) (cache cache2 : Cache)
    (q1 q2 : Request) (s1 s2 : σ) (entry : CachedResponse)
    (hmethod : q1.Method = q2.Method)
    (hurl : env.urlString q1.URL = env.urlString q2.URL)
    (hnobypass : strings.Contains q2.URL.RawQuery "bypass-cache=true" = false)
    (hstored : Event.store (originalKey env q1) entry ∈ (RoundTrip env cache q1 s1).trace)
    (hkept : cache2.items (originalKey env q1)
      = (RoundTrip env cache q1 s1).cache.items (originalKey env q1))
    (hfresh : env.now s2 ≤ env.now (RoundTrip env cache q1 s1).world + 5 * time.Minute) :
    forwardCount (RoundTrip env cache2 q2 s2).trace = 0
      ∧ (RoundTrip env cache2 q2 s2).err = none
      ∧ ∃ resp, (RoundTrip env cache2 q2 s2).resp = some resp
          ∧ resp.Header.Get "X-Cache" = "HIT" ∧ resp.Header.Values "X-Cache" = ["HIT"] := by
  obtain ⟨_, resp, _, _, _, _, _, _, heq⟩ := RoundTrip_of_store_mem env cache q1 s1 _ entry hstored
  have hkey : originalKey env q2 = originalKey env q1 := by
    unfold originalKey
    rw [hmethod, hurl]
  rw [heq] at hkept hfresh
  have hget := Cache.Get_Set_fresh cache (originalKey env q1) (.cachedResponse entry) _
    (env.now s2) cache2 hkept hfresh
  rw [← hkey] at hget
  rw [RoundTrip_of_hit env cache2 q2 s2 entry (cacheHit_of_Get env cache2 q2 s2 entry hnobypass hget)]
  refine ⟨rfl, rfl, _, rfl, ?_, ?_⟩
  · exact Header.Get_Set_self _ _ _
  · exact Header.Values_Set_self _ _ _

/-- C1 witness: `GET http://origin/a` twice against an origin that answers 200. -/
theorem C1_second_request_is_hit_witness :
    forwardCount (RoundTrip (originAlways okResponse)
        (RoundTrip (originAlways okResponse) InMemoryCache getA 0).cache getA 7).trace = 0
      ∧ (RoundTrip (originAlways okResponse)
        (RoundTrip (originAlways okResponse) InMemoryCache getA 0).cache getA 7).err = none
      ∧ ∃ resp, (RoundTrip (originAlways okResponse)
        (RoundTrip (originAlways okResponse) InMemoryCache getA 0).cache getA 7).resp = some resp
          ∧ resp.Header.Get "X-Cache" = "HIT" ∧ resp.Header.Values "X-Cache" = ["HIT"] :=
  C1_second_request_is_hit (originAlways okResponse) InMemoryCache _ getA getA 0 7
    ⟨200, Header.single "Content-Type" ["text/plain"], [104, 105]⟩ rfl rfl (by decide)
    (by simp [RoundTrip, performRequest, forwardFinal, followRedirects, cacheFinal, originAlways,
      okResponse, lookupTrace, originalKey, cacheHit, InMemoryCache, Cache.Get, getA,
      strings.Contains, containsChars, io.ReadAll, io.NopCloser, Body.Close, isCacheable,
      Header.Get, Header.single, Header.Clone]) rfl (by decide)

theorem cacheHit_of_bypass {σ : Type} (env : Env σ) (cache : Cache) (req : Request) (s : σ)
    (hb : strings.Contains req.URL.RawQuery "bypass-cache=true" = true) :
    cacheHit env cache req s = none := by
  unfold cacheHit
  rw [if_pos hb]

theorem lookupTrace_of_bypass {σ : Type} (env : Env σ) (req : Request)
    (hb : strings.Contains req.URL.RawQuery "bypass-cache=true" = true) :
    lookupTrace env req = [] := by
  unfold lookupTrace
  rw [if_pos hb]

/-- What the trace and the returned pair of a bypass request look like,
whatever the cache holds. -/
theorem RoundTrip_of_bypass {σ : Type} (env : Env σ) (cache : Cache) (req : Request) (s : σ)
    (hbypass : strings.Contains req.URL.RawQuery "bypass-cache=true" = true) :
    (∀ ev ∈ (RoundTrip env cache req s).trace, ev.isLookup = false)
      ∧ (RoundTrip env cache req s).trace.head? = some (.forward req (env.forward req s).1)
      ∧ 1 ≤ forwardCount (RoundTrip env cache req s).trace
      ∧ (∀ cache2, (RoundTrip env cache2 req s).resp = (RoundTrip env cache req s).resp
          ∧ (RoundTrip env cache2 req s).err = (RoundTrip env cache req s).err
          ∧ (RoundTrip env cache2 req s).trace = (RoundTrip env cache req s).trace)
      ∧ (∀ resp, (RoundTrip env cache req s).resp = some resp →
          resp.Header.Get "X-Cache" = "MISS" ∧ resp.Header.Values "X-Cache" = ["MISS"])
      ∧ ((RoundTrip env cache req s).err = none →
          ∃ resp, (RoundTrip env cache req s).resp = some resp) := by
  have hfw := forwardFinal_trace env req s
  have hhead : ∀ l : List Event, ((forwardFinal env req s).trace ++ l).head?
      = some (.forward req (env.forward req s).1) := by
    intro l
    cases htr : (forwardFinal env req s).trace with
    | nil => rw [htr] at hfw; simp at hfw
    | cons a t => rw [htr] at hfw; simpa using hfw.2.2
  have hcount : ∀ l : List Event, 1 ≤ forwardCount ((forwardFinal env req s).trace ++ l) := by
    intro l
    rw [forwardCount_append, forwardCount_of_all_forward _ hfw.1]
    cases htr : (forwardFinal env req s).trace with
    | nil => rw [htr] at hfw; simp at hfw
    | cons a t => simp only [List.length_cons]; omega
  have hnl : ∀ ev ∈ (forwardFinal env req s).trace, ev.isLookup = false :=
    fun ev hev => not_lookup_of_forward ev (hfw.1 ev hev)
  have hindep : ∀ cache2, (RoundTrip env cache2 req s).resp = (RoundTrip env cache req s).resp
      ∧ (RoundTrip env cache2 req s).err = (RoundTrip env cache req s).err
      ∧ (RoundTrip env cache2 req s).trace = (RoundTrip env cache req s).trace := by
    intro cache2
    have h2 := cacheHit_of_bypass env cache2 req s hbypass
    rcases RoundTrip_cases env cache req s with ⟨cr, hh, _⟩ | ⟨_, e, hf, heq⟩ | ⟨_, resp, hf, hc, heq⟩ |
      ⟨_, resp, e, hf, hc, hre, heq⟩ | ⟨_, resp, hf, hc, hr, hcl, heq⟩
    · rw [cacheHit_of_bypass env cache req s hbypass] at hh; cases hh
    · rw [heq, RoundTrip_of_miss env cache2 req s h2, performRequest_of_error env cache2 _ req s _ e hf]
      exact ⟨rfl, rfl, rfl⟩
    · rw [heq, RoundTrip_of_miss env cache2 req s h2, performRequest_of_ok env cache2 _ req s _ resp hf,
        cacheFinal_not_cacheable env cache2 _ _ resp _ _ hc]
      exact ⟨rfl, rfl, rfl⟩
    · rw [heq, RoundTrip_of_miss env cache2 req s h2, performRequest_of_ok env cache2 _ req s _ resp hf]
      rcases hre with hr | ⟨hr, hcl⟩
      · rw [cacheFinal_read_error env cache2 _ _ resp _ _ e hc hr]
        exact ⟨rfl, rfl, rfl⟩
      · rw [cacheFinal_close_error env cache2 _ _ resp _ _ e hc hr hcl]
        exact ⟨rfl, rfl, rfl⟩
    · rw [heq, RoundTrip_of_miss env cache2 req s h2, performRequest_of_ok env cache2 _ req s _ resp hf,
        cacheFinal_stored env cache2 _ _ resp _ _ hc hr hcl]
      exact ⟨rfl, rfl, rfl⟩
  refine ⟨?_, ?_, ?_, hindep, ?_, ?_⟩ <;>
  rcases RoundTrip_cases env cache req s with ⟨cr, hh, _⟩ | ⟨_, e, hf, heq⟩ | ⟨_, resp, hf, hc, heq⟩ |
      ⟨_, resp, e, hf, hc, hre, heq⟩ | ⟨_, resp, hf, hc, hr, hcl, heq⟩ <;>
  first
  | (rw [cacheHit_of_bypass env cache req s hbypass] at hh; cases hh)
  | skip
  all_goals rw [heq, lookupTrace_of_bypass env req hbypass]
  all_goals simp only [List.nil_append]
  · exact hnl
  · exact hnl
  · exact hnl
  · intro ev hev
    rcases List.mem_append.mp hev with h | h
    · exact hnl ev h
    · rw [List.mem_singleton] at h; subst h; rfl
  · simpa using hhead []
  · simpa using hhead []
  · simpa using hhead []
  · exact hhead _
  · simpa using hcount []
  · simpa using hcount []
  · simpa using hcount []
  · exact hcount _
  · intro r hr; cases hr
  · intro r hr
    cases hr
    exact ⟨Header.Get_Set_self _ _ _, Header.Values_Set_self _ _ _⟩
  · intro r hr; cases hr
  · intro r hr
    cases hr
    exact ⟨Header.Get_Set_self _ _ _, Header.Values_Set_self _ _ _⟩
  · intro h; cases h
  · intro _; exact ⟨_, rfl⟩
  · intro h; cases h
  · intro _; exact ⟨_, rfl⟩

/-- C2, as stated, fails when the body of the cacheable final response cannot
be read: the bypass request `GET http://origin/a?bypass-cache=true` is forwarded
once, the forward succeeds with a cacheable 200 whose body breaks off, and
`RoundTrip` returns the read error and no response, so no `MISS` response. -/
theorem C2_counterexample :
    strings.Contains getBypass.URL.RawQuery "bypass-cache=true" = true
      ∧ forwardCount (RoundTrip (originAlways truncatedResponse) InMemoryCache getBypass 0).trace = 1
      ∧ (forwardFinal (originAlways truncatedResponse) getBypass 0).finalStatus = some (200, true)
      ∧ (RoundTrip (originAlways truncatedResponse) InMemoryCache getBypass 0).resp.isSome = false
      ∧ (RoundTrip (originAlways truncatedResponse) InMemoryCache getBypass 0).err
          = some "unexpected EOF" := by
  decide

/-- C2 (amended): a request whose raw query contains `bypass-cache=true` is
handled without any cache lookup, whatever the cache holds: the first thing
`RoundTrip` does is forward the request, and the returned pair and the trace do
not depend on the cache. When forwarding succeeds with the final response
`final`, `RoundTrip` returns no error and a response with the status of `final`
and its headers with `X-Cache` set to the single value `MISS`, unless `final` is
cacheable and reading or closing its body fails: then `RoundTrip` returns that
error and no response. -/
theorem C2_bypass_skips_lookup {σ : Type} (env : Env σ) (cache : Cache) (req : Request) (s : σ)
    (hbypass : strings.Contains req.URL.RawQuery "bypass-cache=true" = true) :
    (∀ ev ∈ (RoundTrip env cache req s).trace, ev.isLookup = false)
      ∧ (RoundTrip env cache req s).trace.head? = some (.forward req (env.forward req s).1)
      ∧ 1 ≤ forwardCount (RoundTrip env cache req s).trace
      ∧ (∀ cache2, (RoundTrip env cache2 req s).resp = (RoundTrip env cache req s).resp
          ∧ (RoundTrip env cache2 req s).err = (RoundTrip env cache req s).err
          ∧ (RoundTrip env cache2 req s).trace = (RoundTrip env cache req s).trace)
      ∧ (∀ resp, (RoundTrip env cache req s).resp = some resp →
          resp.Header.Get "X-Cache" = "MISS" ∧ resp.Header.Values "X-Cache" = ["MISS"])
      ∧ (∀ final, (forwardFinal env req s).result = .ok final →
          ((isCacheable final.Header = false
              ∨ ((io.ReadAll final.Body).1.2 = none
                ∧ (io.ReadAll final.Body).2.Close.1 = none)) →
            (RoundTrip env cache req s).err = none
              ∧ ∃ r, (RoundTrip env cache req s).resp = some r
                  ∧ r.StatusCode = final.StatusCode
                  ∧ r.Header = final.Header.Set "X-Cache" "MISS"
                  ∧ r.Header.Get "X-Cache" = "MISS"
                  ∧ r.Header.Values "X-Cache" = ["MISS"])
          ∧ (isCacheable final.Header = true → ∀ e,
              ((io.ReadAll final.Body).1.2 = some e
                ∨ ((io.ReadAll final.Body).1.2 = none
                  ∧ (io.ReadAll final.Body).2.Close.1 = some e)) →
              (RoundTrip env cache req s).resp = none
                ∧ (RoundTrip env cache req s).err = some e)) := by
  obtain ⟨h1, h2, h3, h4, h5, _⟩ := RoundTrip_of_bypass env cache req s hbypass
  refine ⟨h1, h2, h3, h4, h5, ?_⟩
  intro final hfinal
  obtain ⟨hn, hs, he⟩ := RoundTrip_of_final env cache req s final
    (cacheHit_of_bypass env cache req s hbypass) hfinal
  refine ⟨?_, ?_⟩
  · intro hok
    by_cases hc : isCacheable final.Header = true
    · rcases hok with hnc | ⟨hr, hcl⟩
      · rw [hc] at hnc; cases hnc
      · rw [hs hc hr hcl]
        exact ⟨rfl, _, rfl, rfl, rfl, Header.Get_Set_self _ _ _, Header.Values_Set_self _ _ _⟩
    · rw [hn (by simpa using hc)]
      exact ⟨rfl, _, rfl, rfl, rfl, Header.Get_Set_self _ _ _, Header.Values_Set_self _ _ _⟩
  · intro hc e hfail
    rw [he hc e hfail]
    exact ⟨rfl, rfl⟩

/-- C2 witness: `GET http://origin/a?bypass-cache=true` against a cache that
already holds an entry under the request's key: the request is forwarded and
the response returned carries `X-Cache: MISS`. -/
theorem C2_bypass_skips_lookup_witness :
    strings.Contains getBypass.URL.RawQuery "bypass-cache=true" = true
      ∧ ((RoundTrip (originAlways okResponse) InMemoryCache getBypass 0).cache.Get
          (originalKey (originAlways okResponse) getBypass) 1).isSome = true
      ∧ 1 ≤ forwardCount (RoundTrip (originAlways okResponse)
          (RoundTrip (originAlways okResponse) InMemoryCache getBypass 0).cache getBypass 1).trace
      ∧ ∃ r, (RoundTrip (originAlways okResponse)
          (RoundTrip (originAlways okResponse) InMemoryCache getBypass 0).cache getBypass 1).resp
            = some r
          ∧ r.StatusCode = 200 ∧ r.Header.Values "X-Cache" = ["MISS"] :=
  have h := C2_bypass_skips_lookup (originAlways okResponse)
    (RoundTrip (originAlways okResponse) InMemoryCache getBypass 0).cache getBypass 1 (by decide)
  ⟨by decide, by decide, h.2.2.1,
    ((h.2.2.2.2.2 okResponse rfl).1 (Or.inr ⟨rfl, rfl⟩)).2.imp
      fun _ hr => ⟨hr.1, hr.2.1, hr.2.2.2.2⟩⟩

/-- C3, as stated, fails on a header with several `Cache-Control` values: with the
values `public` and `no-store` the second value contains `no-store`, yet
`isCacheable` is true and a `RoundTrip` ending on that response stores it. -/
theorem C3_counterexample :
    (twoCacheControl.Header.Values "Cache-Control").any (fun v => strings.Contains v "no-store") = true
      ∧ isCacheable twoCacheControl.Header = true
      ∧ (RoundTrip (originAlways twoCacheControl) InMemoryCache getA 0).trace.any Event.isStore = true
      ∧ ((RoundTrip (originAlways twoCacheControl) InMemoryCache getA 0).cache.Get
          "GET:http://origin/a" 1).isSome = true := by
  decide

theorem RoundTrip_no_store_of_not_cacheable {σ : Type} (env : Env σ) (cache : Cache)
    (req : Request) (s : σ) (resp : Response)
    (hfinal : (forwardFinal env req s).result = .ok resp)
    (hc : isCacheable resp.Header = false) :
    (RoundTrip env cache req s).cache = cache
      ∧ ∀ ev ∈ (RoundTrip env cache req s).trace, ev.isStore = false := by
  have hns := lookupTrace_forward_no_store env req s
  rcases RoundTrip_cases env cache req s with ⟨cr, _, heq⟩ | ⟨_, e, _, heq⟩ | ⟨_, resp2, _, _, heq⟩ |
      ⟨_, resp2, e, _, _, _, heq⟩ | ⟨hh, resp2, hf, hc2, hr, hcl, heq⟩
  · rw [heq]
    refine ⟨rfl, ?_⟩
    intro ev hev
    rw [List.mem_singleton] at hev
    subst hev
    rfl
  · rw [heq]; exact ⟨rfl, hns⟩
  · rw [heq]; exact ⟨rfl, hns⟩
  · rw [heq]; exact ⟨rfl, hns⟩
  · rw [hfinal] at hf
    cases hf
    rw [hc] at hc2
    cases hc2

/-- C3 (amended): `isCacheable h` is false if and only if the first value of the
`Cache-Control` header of `h` (what `Header.Get` returns, the empty string when
the header is absent) contains `no-cache` or `no-store` as a case-sensitive
substring; otherwise, in particular when `Cache-Control` is absent, it is true.
Consequently a `RoundTrip` whose final response has `no-store` in the first
`Cache-Control` value stores nothing: the cache is unchanged and the trace
holds no store event. -/
theorem C3_isCacheable_first_value (h : Header) :
    h.Get "Cache-Control" = (h.Values "Cache-Control").headD ""
      ∧ (isCacheable h = false ↔
          ("no-cache".toList <:+: (h.Get "Cache-Control").toList
            ∨ "no-store".toList <:+: (h.Get "Cache-Control").toList))
      ∧ (¬ ("no-cache".toList <:+: (h.Get "Cache-Control").toList
            ∨ "no-store".toList <:+: (h.Get "Cache-Control").toList) → isCacheable h = true)
      ∧ (h.entries "Cache-Control" = none → isCacheable h = true)
      ∧ ∀ (σ : Type) (env : Env σ) (cache : Cache) (req : Request) (s : σ) (resp : Response),
          (forwardFinal env req s).result = .ok resp → resp.Header = h →
          "no-store".toList <:+: (h.Get "Cache-Control").toList →
          (RoundTrip env cache req s).cache = cache
            ∧ ∀ ev ∈ (RoundTrip env cache req s).trace, ev.isStore = false := by
  have hcanon : CanonicalMIMEHeaderKey "Cache-Control" = "Cache-Control" := by decide
  refine ⟨?_, isCacheable_eq_false_iff h, ?_, ?_, ?_⟩
  · unfold Header.Get Header.Values
    cases h.entries (CanonicalMIMEHeaderKey "Cache-Control") with
    | none => rfl
    | some vs => cases vs <;> rfl
  · intro hn
    rw [← isCacheable_eq_false_iff] at hn
    simpa using hn
  · intro hnone
    have hget : h.Get "Cache-Control" = "" := by
      unfold Header.Get
      rw [hcanon, hnone]
    rw [isCacheable_eq, hget]
    decide
  · intro σ env cache req s resp hfinal hh hns
    subst hh
    exact RoundTrip_no_store_of_not_cacheable env cache req s resp hfinal
      ((isCacheable_eq_false_iff _).mpr (Or.inr hns))

/-- C3 witness: an origin answering `Cache-Control: no-store`. -/
theorem C3_isCacheable_first_value_witness :
    isCacheable noStoreResponse.Header = false
      ∧ (RoundTrip (originAlways noStoreResponse) InMemoryCache getA 0).cache = InMemoryCache
      ∧ ∀ ev ∈ (RoundTrip (originAlways noStoreResponse) InMemoryCache getA 0).trace,
          ev.isStore = false :=
  ⟨by decide,
    (C3_isCacheable_first_value noStoreResponse.Header).2.2.2.2 Nat (originAlways noStoreResponse)
      InMemoryCache getA 0 noStoreResponse rfl rfl
      ((containsChars_iff _ _).mp (by decide))⟩

/-- C4, as stated, fails when the body of the final response cannot be read:
`GET /a -> 302 /b -> 200` with a cacheable final response whose body breaks off
makes two forwards and stores nothing, under no key. -/
theorem C4_counterexample :
    (cacheHit (originRedirect truncatedResponse) InMemoryCache getA 0).isSome = false
      ∧ forwardCount (forwardFinal (originRedirect truncatedResponse) getA 0).trace = 2
      ∧ (forwardFinal (originRedirect truncatedResponse) getA 0).finalStatus = some (200, true)
      ∧ (RoundTrip (originRedirect truncatedResponse) InMemoryCache getA 0).trace.any Event.isStore
          = false
      ∧ ((RoundTrip (originRedirect truncatedResponse) InMemoryCache getA 0).cache.items
          "GET:http://origin/a").isSome = false
      ∧ (RoundTrip (originRedirect truncatedResponse) InMemoryCache getA 0).err
          = some "unexpected EOF" := by
  decide

theorem filter_isStore_eq_nil (tr : List Event) (h : ∀ ev ∈ tr, ev.isStore = false) :
    tr.filter Event.isStore = [] := by
  rw [List.filter_eq_nil_iff]
  intro ev hev
  rw [h ev hev]
  exact Bool.false_ne_true

/-- C4 (amended): for a request that is not served from the cache, whose
forwarding (with its followed redirects) ends in a cacheable final response
whose body is read and closed without error, `RoundTrip` stores exactly one
entry, under the key `method + ":" + URL` of the original request, holding the
status code, headers and body bytes of the final response; that entry is what a
lookup of the key finds right after the call, and the entry of every other key
is left as it was. -/
theorem C4_chain_cached_under_original_key {σ : Type} (env : Env σ) (cache : Cache)
    (req : Request) (s : σ) (resp : Response)
    (hmiss : cacheHit env cache req s = none)
    (hfinal : (forwardFinal env req s).result = .ok resp)
    (hcacheable : isCacheable resp.Header = true)
    (hread : (io.ReadAll resp.Body).1.2 = none)
    (hclose : (io.ReadAll resp.Body).2.Close.1 = none) :
    (RoundTrip env cache req s).trace.filter Event.isStore
        = [.store (req.Method ++ ":" ++ env.urlString req.URL)
            ⟨resp.StatusCode, resp.Header, resp.Body.data⟩]
      ∧ (RoundTrip env cache req s).cache.Get (req.Method ++ ":" ++ env.urlString req.URL)
          (env.now (RoundTrip env cache req s).world)
          = some (.cachedResponse ⟨resp.StatusCode, resp.Header, resp.Body.data⟩)
      ∧ ∀ k, k ≠ req.Method ++ ":" ++ env.urlString req.URL →
          (RoundTrip env cache req s).cache.items k = cache.items k := by
  have hns := lookupTrace_forward_no_store env req s
  rcases RoundTrip_cases env cache req s with ⟨cr, hh, _⟩ | ⟨_, e, hf, _⟩ | ⟨_, resp2, hf, hc2, _⟩ |
      ⟨_, resp2, e, hf, _, hre, _⟩ | ⟨_, resp2, hf, _, _, _, heq⟩
  · rw [hmiss] at hh; cases hh
  · rw [hfinal] at hf; cases hf
  · rw [hfinal] at hf; cases hf
    rw [hcacheable] at hc2; cases hc2
  · rw [hfinal] at hf; cases hf
    rcases hre with hr | ⟨_, hcl⟩
    · rw [hread] at hr; cases hr
    · rw [hclose] at hcl; cases hcl
  · rw [hfinal] at hf; cases hf
    rw [heq]
    refine ⟨?_, ?_, ?_⟩
    · rw [List.filter_append, filter_isStore_eq_nil _ hns]
      rfl
    · have h5 : (0 : Int) ≤ 5 * time.Minute := by decide
      exact Cache.Get_Set_fresh cache _ _ _ _ _ rfl (le_add_of_nonneg_right h5)
    · intro k hk
      show (if k = originalKey env req then _ else cache.items k) = cache.items k
      exact if_neg hk

/-- C4 witness: `GET /a -> 302 Location /b -> 200`; the entry goes under the
key of `/a`, and the key of `/b` stays empty. -/
theorem C4_chain_cached_under_original_key_witness :
    (RoundTrip (originRedirect okResponse) InMemoryCache getA 0).trace.filter Event.isStore
        = [.store "GET:http://origin/a" ⟨200, okResponse.Header, [104, 105]⟩]
      ∧ (RoundTrip (originRedirect okResponse) InMemoryCache getA 0).cache.items "GET:http://origin/b"
          = none
      ∧ (RoundTrip (originRedirect okResponse) InMemoryCache getA 0).req.URL.Path = "/b" :=
  ⟨(C4_chain_cached_under_original_key (originRedirect okResponse) InMemoryCache getA 0 okResponse
      rfl rfl (by decide) rfl rfl).1,
    ((C4_chain_cached_under_original_key (originRedirect okResponse) InMemoryCache getA 0 okResponse
      rfl rfl (by decide) rfl rfl).2.2 "GET:http://origin/b" (by decide)).trans rfl,
    by decide⟩

theorem takesStep_some {σ : Type} (env : Env σ) (req : Request) (resp : Response) (u : URL)
    (h : takesStep env req resp = some u) :
    (resp.StatusCode ≥ 300 ∧ resp.StatusCode < 400) ∧ resp.Header.Get "Location" ≠ ""
      ∧ env.urlParse req.URL (resp.Header.Get "Location") = .ok u := by
  unfold takesStep at h
  by_cases h1 : resp.StatusCode ≥ 300 ∧ resp.StatusCode < 400
  · rw [if_pos h1] at h
    by_cases h2 : resp.Header.Get "Location" = ""
    · rw [if_pos h2] at h; cases h
    · rw [if_neg h2] at h
      cases h3 : env.urlParse req.URL (resp.Header.Get "Location") with
      | error e => rw [h3] at h; cases h
      | ok v =>
        rw [h3] at h
        cases h
        exact ⟨h1, h2, rfl⟩
  · rw [if_neg h1] at h; cases h

theorem seeOtherRule_redirectRequest {σ : Type} (env : Env σ) (req : Request) (resp : Response)
    (u : URL) (res : Except String Response) (h : takesStep env req resp = some u) :
    seeOtherRule env (.forward req (.ok resp)) (.forward (redirectRequest req resp u) res) := by
  intro h303
  obtain ⟨_, _, hp⟩ := takesStep_some env req resp u h
  unfold redirectRequest
  rw [if_pos h303]
  exact ⟨rfl, rfl, hp, rfl, rfl⟩

theorem followRedirects_chain {σ : Type} (env : Env σ) (n : Nat) (req : Request)
    (resp : Response) (s : σ) :
    List.Chain' (seeOtherRule env)
      (.forward req (.ok resp) :: (followRedirects env n req resp s).trace) := by
  induction n generalizing req resp s with
  | zero => exact List.chain'_singleton _
  | succ n ih =>
    cases h : takesStep env req resp with
    | none =>
      rw [followRedirects_stop env _ req resp s h]
      exact List.chain'_singleton _
    | some newURL =>
      rw [followRedirects_step env n req resp s newURL h]
      rcases hf : env.forward (redirectRequest req resp newURL) s with ⟨res, s2⟩
      cases res with
      | error e =>
        exact List.Chain'.cons (seeOtherRule_redirectRequest env req resp newURL _ h)
          (List.chain'_singleton _)
      | ok resp2 =>
        exact List.Chain'.cons (seeOtherRule_redirectRequest env req resp newURL _ h)
          (ih (redirectRequest req resp newURL) resp2 s2)

theorem forwardFinal_chain {σ : Type} (env : Env σ) (req : Request) (s : σ) :
    List.Chain' (seeOtherRule env) (forwardFinal env req s).trace := by
  unfold forwardFinal
  rcases hf : env.forward req s with ⟨res, s2⟩
  cases res with
  | error e => exact List.chain'_singleton _
  | ok resp => exact followRedirects_chain env 10 req resp s2

theorem seeOtherRule_lookup {σ : Type} (env : Env σ) (k : String) (ev : Event) :
    seeOtherRule env (.lookup k) ev := by
  unfold seeOtherRule
  trivial

theorem seeOtherRule_store {σ : Type} (env : Env σ) (k : String) (e : CachedResponse)
    (ev : Event) : seeOtherRule env ev (.store k e) := by
  unfold seeOtherRule
  split
  · rename_i h; cases h
  · trivial

theorem lookup_forward_chain {σ : Type} (env : Env σ) (req : Request) (s : σ) :
    List.Chain' (seeOtherRule env) (lookupTrace env req ++ (forwardFinal env req s).trace) := by
  unfold lookupTrace
  split
  · exact forwardFinal_chain env req s
  · refine List.Chain'.cons' (forwardFinal_chain env req s) ?_
    intro y _
    exact seeOtherRule_lookup env _ y

theorem RoundTrip_chain {σ : Type} (env : Env σ) (cache : Cache) (req : Request) (s : σ) :
    List.Chain' (seeOtherRule env) (RoundTrip env cache req s).trace := by
  have hc := lookup_forward_chain env req s
  rcases RoundTrip_cases env cache req s with ⟨cr, _, heq⟩ | ⟨_, e, _, heq⟩ | ⟨_, resp, _, _, heq⟩ |
      ⟨_, resp, e, _, _, _, heq⟩ | ⟨_, resp, _, _, _, _, heq⟩
  · rw [heq]; exact List.chain'_singleton _
  · rw [heq]; exact hc
  · rw [heq]; exact hc
  · rw [heq]; exact hc
  · rw [heq]
    refine List.chain'_append.mpr ⟨hc, List.chain'_singleton _, ?_⟩
    intro x _ y hy
    simp only [List.head?_cons, Option.mem_def, Option.some.injEq] at hy
    subst hy
    exact seeOtherRule_store env _ _ x

/-- C5: in every `RoundTrip`, whenever the forward of a request `req` was answered
by a response with status exactly 303 and the redirect-follow loop then took a
step, the request `next` handed to the forwarder by that step has method GET
and no body, whatever the method and body of `req`, and its URL is the
`Location` of the response resolved against the URL of `req`. -/
theorem C5_see_other_becomes_get {σ : Type} (env : Env σ) (cache : Cache) (req0 : Request)
    (s : σ) (before after : List Event) (req next : Request) (resp : Response)
    (res : Except String Response)
    (htrace : (RoundTrip env cache req0 s).trace
      = before ++ .forward req (.ok resp) :: .forward next res :: after)
    (hstatus : resp.StatusCode = 303) :
    next.Method = "GET" ∧ next.Body = none
      ∧ env.urlParse req.URL (resp.Header.Get "Location") = .ok next.URL := by
  have hc := RoundTrip_chain env cache req0 s
  rw [htrace, List.chain'_append_cons_cons] at hc
  have h := hc.2.1 hstatus
  exact ⟨h.1, h.2.1, h.2.2.1⟩

/-- C5 witness: a POST with a body answered by `303 Location: /done`; the
follow-up request is `GET http://origin/done` without body. -/
theorem C5_see_other_becomes_get_witness :
    postForm.Method = "POST" ∧ postForm.Body.isSome = true
      ∧ (redirectRequest postForm seeOtherDone ⟨"http", "origin", "/done", ""⟩).Method = "GET"
      ∧ (redirectRequest postForm seeOtherDone ⟨"http", "origin", "/done", ""⟩).Body = none
      ∧ sampleParse postForm.URL (seeOtherDone.Header.Get "Location")
          = .ok (redirectRequest postForm seeOtherDone ⟨"http", "origin", "/done", ""⟩).URL :=
  ⟨rfl, rfl,
    C5_see_other_becomes_get originSeeOther InMemoryCache postForm 0
      [.lookup "POST:http://origin/form"]
      [.store "POST:http://origin/form" ⟨200, okResponse.Header, [104, 105]⟩]
      postForm (redirectRequest postForm seeOtherDone ⟨"http", "origin", "/done", ""⟩)
      seeOtherDone (.ok okResponse) rfl rfl⟩

/-- C6, as stated, fails when the body of the 11th response cannot be read: an
origin that always answers `302 Location: /next` is forwarded to 11 times, the
11th response is cacheable, reading its body fails, and `RoundTrip` returns that
error and no response. -/
theorem C6_counterexample :
    forwardCount (RoundTrip (originAlways foundNextTruncated) InMemoryCache getA 0).trace = 11
      ∧ (forwardFinal (originAlways foundNextTruncated) getA 0).finalStatus = some (302, true)
      ∧ (RoundTrip (originAlways foundNextTruncated) InMemoryCache getA 0).resp.isSome = false
      ∧ (RoundTrip (originAlways foundNextTruncated) InMemoryCache getA 0).err
          = some "unexpected EOF" := by
  decide

theorem takesStep_of_redirecting {σ : Type} (env : Env σ) (req : Request) (resp : Response)
    (h : redirecting env resp) : ∃ u, takesStep env req resp = some u := by
  obtain ⟨h1, h2, h3⟩ := h
  obtain ⟨v, hv⟩ := h3 req.URL
  refine ⟨v, ?_⟩
  unfold takesStep
  rw [if_pos h1, if_neg h2, hv]

theorem followRedirects_always {σ : Type} (env : Env σ) (hall : alwaysRedirects env) (n : Nat)
    (req : Request) (resp : Response) (s : σ) (hr : redirecting env resp) :
    (followRedirects env n req resp s).trace.length = n
      ∧ ∃ reqLast last, redirecting env last
          ∧ (followRedirects env n req resp s).result = .ok last
          ∧ (.forward req (.ok resp) :: (followRedirects env n req resp s).trace).getLast?
              = some (.forward reqLast (.ok last)) := by
  induction n generalizing req resp s with
  | zero => exact ⟨rfl, req, resp, hr, rfl, rfl⟩
  | succ n ih =>
    obtain ⟨u, hu⟩ := takesStep_of_redirecting env req resp hr
    rw [followRedirects_step env n req resp s u hu]
    obtain ⟨resp2, s2, hf, hr2⟩ := hall (redirectRequest req resp u) s
    rw [hf]
    obtain ⟨hlen, reqLast, last, hlast, hres, hget⟩ := ih (redirectRequest req resp u) resp2 s2 hr2
    refine ⟨by simp only [List.length_cons, hlen], reqLast, last, hlast, hres, ?_⟩
    rw [List.getLast?_cons_cons]
    exact hget

theorem forwardFinal_always {σ : Type} (env : Env σ) (hall : alwaysRedirects env)
    (req : Request) (s : σ) :
    (forwardFinal env req s).trace.length = 11
      ∧ ∃ reqLast last, redirecting env last
          ∧ (forwardFinal env req s).result = .ok last
          ∧ (forwardFinal env req s).trace.getLast? = some (.forward reqLast (.ok last)) := by
  obtain ⟨resp, s2, hf, hr⟩ := hall req s
  unfold forwardFinal
  rw [hf]
  obtain ⟨hlen, reqLast, last, hlast, hres, hget⟩ := followRedirects_always env hall 10 req resp s2 hr
  exact ⟨by simp only [List.length_cons, hlen], reqLast, last, hlast, hres, hget⟩

theorem RoundTrip_forwardCount {σ : Type} (env : Env σ) (cache : Cache) (req : Request) (s : σ) :
    (cacheHit env cache req s ≠ none → forwardCount (RoundTrip env cache req s).trace = 0)
      ∧ (cacheHit env cache req s = none →
          forwardCount (RoundTrip env cache req s).trace = (forwardFinal env req s).trace.length) := by
  have hfw := (forwardFinal_trace env req s).1
  have hl : forwardCount (lookupTrace env req) = 0 := by
    unfold lookupTrace
    split <;> rfl
  have hcount : forwardCount (lookupTrace env req ++ (forwardFinal env req s).trace)
      = (forwardFinal env req s).trace.length := by
    rw [forwardCount_append, hl, forwardCount_of_all_forward _ hfw, Nat.zero_add]
  rcases RoundTrip_cases env cache req s with ⟨cr, hh, heq⟩ | ⟨hh, e, _, heq⟩ | ⟨hh, resp, _, _, heq⟩ |
      ⟨hh, resp, e, _, _, _, heq⟩ | ⟨hh, resp, _, _, _, _, heq⟩
  · rw [heq, hh]
    exact ⟨fun _ => rfl, fun h => by cases h⟩
  · rw [heq]; exact ⟨fun h => absurd hh h, fun _ => hcount⟩
  · rw [heq]; exact ⟨fun h => absurd hh h, fun _ => hcount⟩
  · rw [heq]; exact ⟨fun h => absurd hh h, fun _ => hcount⟩
  · rw [heq]
    refine ⟨fun h => absurd hh h, fun _ => ?_⟩
    rw [forwardCount_append, hcount]
    rfl

/-- C6 (amended): one `RoundTrip` call invokes the forwarder at most 11 times.
When the forwarder answers every request with a 3xx response carrying a
parseable non-empty `Location` and the request is not served from the cache,
the forwarder is invoked exactly 11 times and the loop ends on the 11th
response, unchanged and still a redirect. `RoundTrip` then returns it with
`X-Cache` set to `MISS` (same status, other headers and body bytes), unless it
is cacheable and reading or closing its body fails: then `RoundTrip` returns
that error and no response. -/
theorem C6_redirect_limit {σ : Type} (env : Env σ) (cache : Cache) (req : Request) (s : σ) :
    forwardCount (RoundTrip env cache req s).trace ≤ 11
      ∧ (alwaysRedirects env → cacheHit env cache req s = none →
          forwardCount (RoundTrip env cache req s).trace = 11
            ∧ ∃ reqLast last,
                (forwardFinal env req s).trace.getLast? = some (.forward reqLast (.ok last))
                ∧ (forwardFinal env req s).result = .ok last
                ∧ (last.StatusCode ≥ 300 ∧ last.StatusCode < 400)
                ∧ ((isCacheable last.Header = false
                      ∨ ((io.ReadAll last.Body).1.2 = none ∧ (io.ReadAll last.Body).2.Close.1 = none)) →
                    (RoundTrip env cache req s).err = none
                      ∧ ∃ r, (RoundTrip env cache req s).resp = some r
                          ∧ r.StatusCode = last.StatusCode
                          ∧ r.Header = last.Header.Set "X-Cache" "MISS"
                          ∧ r.Body.data = last.Body.data)
                ∧ (isCacheable last.Header = true → ∀ e,
                    ((io.ReadAll last.Body).1.2 = some e
                      ∨ ((io.ReadAll last.Body).1.2 = none ∧ (io.ReadAll last.Body).2.Close.1 = some e)) →
                    (RoundTrip env cache req s).resp = none
                      ∧ (RoundTrip env cache req s).err = some e)) := by
  have hcount := RoundTrip_forwardCount env cache req s
  have hlen := (forwardFinal_trace env req s).2.1
  refine ⟨?_, ?_⟩
  · cases hh : cacheHit env cache req s with
    | none => rw [hcount.2 hh]; exact hlen
    | some cr =>
      rw [hcount.1 (by rw [hh]; exact Option.some_ne_none cr)]
      exact Nat.zero_le _
  · intro hall hmiss
    obtain ⟨h11, reqLast, last, hlast, hres, hget⟩ := forwardFinal_always env hall req s
    refine ⟨by rw [hcount.2 hmiss, h11], reqLast, last, hget, hres, hlast.1, ?_, ?_⟩
    · intro hok
      rcases RoundTrip_cases env cache req s with ⟨cr, hh, _⟩ | ⟨_, e, hf, _⟩ |
        ⟨_, resp, hf, hc, heq⟩ | ⟨_, resp, e, hf, hc, hre, _⟩ | ⟨_, resp, hf, hc, hr, hcl, heq⟩
      · rw [hmiss] at hh; cases hh
      · rw [hres] at hf; cases hf
      · rw [hres] at hf; cases hf
        rw [heq]
        exact ⟨rfl, _, rfl, rfl, rfl, rfl⟩
      · rw [hres] at hf; cases hf
        rcases hok with hnc | ⟨hr, hcl⟩
        · rw [hc] at hnc; cases hnc
        · rcases hre with hr2 | ⟨_, hcl2⟩
          · rw [hr] at hr2; cases hr2
          · rw [hcl] at hcl2; cases hcl2
      · rw [hres] at hf; cases hf
        rw [heq]
        exact ⟨rfl, _, rfl, rfl, rfl, rfl⟩
    · intro hc e hre
      rcases RoundTrip_cases env cache req s with ⟨cr, hh, _⟩ | ⟨_, e2, hf, _⟩ |
        ⟨_, resp, hf, hc2, _⟩ | ⟨_, resp, e2, hf, _, hre2, heq⟩ | ⟨_, resp, hf, _, hr, hcl, _⟩
      · rw [hmiss] at hh; cases hh
      · rw [hres] at hf; cases hf
      · rw [hres] at hf; cases hf
        rw [hc] at hc2; cases hc2
      · rw [hres] at hf; cases hf
        rw [heq]
        have he : e2 = e := by
          rcases hre with h1 | ⟨h1, h1c⟩ <;> rcases hre2 with h2 | ⟨h2, h2c⟩
          · rw [h1] at h2; exact (Option.some.inj h2).symm
          · rw [h1] at h2; cases h2
          · rw [h1] at h2; cases h2
          · rw [h1c] at h2c; exact (Option.some.inj h2c).symm
        exact ⟨rfl, by rw [he]⟩
      · rw [hres] at hf; cases hf
        rcases hre with h1 | ⟨_, h1c⟩
        · rw [hr] at h1; cases h1
        · rw [hcl] at h1c; cases h1c

/-- C6 witness: an origin that always answers `302 Location: /next`. -/
theorem C6_redirect_limit_witness :
    forwardCount (RoundTrip (originAlways foundNext) InMemoryCache getA 0).trace = 11
      ∧ ∃ reqLast last,
          (forwardFinal (originAlways foundNext) getA 0).trace.getLast?
              = some (.forward reqLast (.ok last))
          ∧ (forwardFinal (originAlways foundNext) getA 0).result = .ok last
          ∧ (last.StatusCode ≥ 300 ∧ last.StatusCode < 400) :=
  have h := (C6_redirect_limit (originAlways foundNext) InMemoryCache getA 0).2
    (fun _ s => ⟨foundNext, s + 1, rfl, by decide, by decide, fun _ => ⟨_, rfl⟩⟩) rfl
  ⟨h.1, h.2.imp fun _ h2 => h2.imp fun _ h3 => ⟨h3.1, h3.2.1, h3.2.2.1⟩⟩

/-- C7: on a response whose `Connection` header is present with an empty first
value (the header lines `Connection:` and `Connection: Upgrade`), `ModifyResponse`
leaves the header in place: `Get` returns the empty string, so the deletion is
skipped. The same happens for `Upgrade` with a single empty value. -/
theorem C7_hop_by_hop_survives :
    emptyConnection.Header.Get "Connection" = ""
      ∧ (ModifyResponse emptyConnection).Header.entries "Connection" = some ["", "Upgrade"]
      ∧ (ModifyResponse emptyConnection).Header.Values "Connection" = ["", "Upgrade"]
      ∧ (ModifyResponse emptyUpgrade).Header.entries "Upgrade" = some [""] := by
  decide

theorem hopByHop_ne_xcache : ∀ h ∈ hopByHopHeaders, "X-Cache" ≠ CanonicalMIMEHeaderKey h := by
  decide

theorem ModifyResponse_xcache (resp : Response) :
    (ModifyResponse resp).Header.Values "X-Cache"
      = [if resp.Header.Get "X-Cache" = "" then "MISS" else resp.Header.Get "X-Cache"] := by
  have hcanon : CanonicalMIMEHeaderKey "X-Cache" = "X-Cache" := by decide
  have hget : (hopByHopHeaders.foldl removeHopByHop resp.Header).Get "X-Cache"
      = resp.Header.Get "X-Cache" := by
    unfold Header.Get
    rw [hcanon, foldl_removeHopByHop_entries _ _ _ hopByHop_ne_xcache]
  unfold ModifyResponse
  simp only [hget]
  exact Header.Values_Set_self _ _ _

/-- C8: the response of a successful `RoundTrip`, once `ModifyResponse` has run,
carries exactly one `X-Cache` value, `HIT` or `MISS`; and on a response without
an `X-Cache` header `ModifyResponse` sets `X-Cache` to the single value `MISS`. -/
theorem C8_exactly_one_x_cache {σ : Type} (env : Env σ) (cache : Cache) (req : Request) (s : σ) :
    (∀ resp, (RoundTrip env cache req s).resp = some resp →
        (ModifyResponse resp).Header.Values "X-Cache" = ["HIT"]
          ∨ (ModifyResponse resp).Header.Values "X-Cache" = ["MISS"])
      ∧ (∀ resp : Response, resp.Header.entries "X-Cache" = none →
          (ModifyResponse resp).Header.Values "X-Cache" = ["MISS"]) := by
  have hcanon : CanonicalMIMEHeaderKey "X-Cache" = "X-Cache" := by decide
  refine ⟨?_, ?_⟩
  · intro resp hresp
    rw [ModifyResponse_xcache]
    rcases RoundTrip_cases env cache req s with ⟨cr, _, heq⟩ | ⟨_, e, _, heq⟩ | ⟨_, r, _, _, heq⟩ |
      ⟨_, r, e, _, _, _, heq⟩ | ⟨_, r, _, _, _, _, heq⟩ <;> rw [heq] at hresp <;> cases hresp
    · left
      simp only [Header.Get_Set_self]
      decide
    · right
      simp only [Header.Get_Set_self]
      decide
    · right
      simp only [Header.Get_Set_self]
      decide
  · intro resp hnone
    rw [ModifyResponse_xcache]
    have : resp.Header.Get "X-Cache" = "" := by
      unfold Header.Get
      rw [hcanon, hnone]
    rw [if_pos this]

/-- C8 witness: the response to `GET http://origin/a` from an origin answering 200. -/
theorem C8_exactly_one_x_cache_witness :
    (∃ resp, (RoundTrip (originAlways okResponse) InMemoryCache getA 0).resp = some resp
        ∧ ((ModifyResponse resp).Header.Values "X-Cache" = ["HIT"]
          ∨ (ModifyResponse resp).Header.Values "X-Cache" = ["MISS"]))
      ∧ (ModifyResponse okResponse).Header.Values "X-Cache" = ["MISS"] :=
  ⟨⟨_, rfl, (C8_exactly_one_x_cache (originAlways okResponse) InMemoryCache getA 0).1 _ rfl⟩,
    (C8_exactly_one_x_cache (originAlways okResponse) InMemoryCache getA 0).2 okResponse rfl⟩

/-- C9: whenever `RoundTrip` returns an error it returns no response, the cache
is exactly as it was before the call and nothing was stored; the error is the
one of a failed forward (the initial one or one made while following a
redirect) or of reading or closing the body of a cacheable final response. -/
theorem C9_error_keeps_cache {σ : Type} (env : Env σ) (cache : Cache) (req : Request) (s : σ)
    (e : String) (herr : (RoundTrip env cache req s).err = some e) :
    (RoundTrip env cache req s).resp = none
      ∧ (RoundTrip env cache req s).cache = cache
      ∧ (∀ ev ∈ (RoundTrip env cache req s).trace, ev.isStore = false)
      ∧ ((forwardFinal env req s).result = .error e
          ∨ ∃ resp, (forwardFinal env req s).result = .ok resp ∧ isCacheable resp.Header = true
              ∧ ((io.ReadAll resp.Body).1.2 = some e ∨ (io.ReadAll resp.Body).2.Close.1 = some e)) := by
  have hns := lookupTrace_forward_no_store env req s
  rcases RoundTrip_cases env cache req s with ⟨cr, _, heq⟩ | ⟨_, e2, hf, heq⟩ | ⟨_, r, _, _, heq⟩ |
      ⟨_, r, e2, hf, hc, hre, heq⟩ | ⟨_, r, _, _, _, _, heq⟩ <;> rw [heq] at herr ⊢
  · cases herr
  · cases herr
    exact ⟨rfl, rfl, hns, Or.inl hf⟩
  · cases herr
  · cases herr
    refine ⟨rfl, rfl, hns, Or.inr ⟨r, hf, hc, ?_⟩⟩
    rcases hre with h | ⟨_, h⟩
    · exact Or.inl h
    · exact Or.inr h
  · cases herr

/-- C9 witness: an origin that refuses the connection. -/
theorem C9_error_keeps_cache_witness :
    (RoundTrip originDown InMemoryCache getA 0).err = some "connection refused"
      ∧ (RoundTrip originDown InMemoryCache getA 0).resp = none
      ∧ (RoundTrip originDown InMemoryCache getA 0).cache = InMemoryCache :=
  ⟨rfl, (C9_error_keeps_cache originDown InMemoryCache getA 0 "connection refused" rfl).1,
    (C9_error_keeps_cache originDown InMemoryCache getA 0 "connection refused" rfl).2.1⟩

theorem Header.entries_Set_of_ne (h : Header) (key v k : String)
    (hk : k ≠ CanonicalMIMEHeaderKey key) : (h.Set key v).entries k = h.entries k :=
  if_neg hk

/-- C10, as stated, fails when the body of the cacheable final response cannot
be read: `GET http://origin/a` misses the cache and its forwarding ends in a
cacheable 200 whose body breaks off; the miss returns the read error and no
response at all, nothing is stored, and the next identical request is
forwarded again. -/
theorem C10_counterexample :
    (cacheHit (originAlways truncatedResponse) InMemoryCache getA 0).isSome = false
      ∧ (forwardFinal (originAlways truncatedResponse) getA 0).finalStatus = some (200, true)
      ∧ (RoundTrip (originAlways truncatedResponse) InMemoryCache getA 0).resp.isSome = false
      ∧ (RoundTrip (originAlways truncatedResponse) InMemoryCache getA 0).err
          = some "unexpected EOF"
      ∧ (RoundTrip (originAlways truncatedResponse) InMemoryCache getA 0).trace.any Event.isStore
          = false
      ∧ forwardCount (RoundTrip (originAlways truncatedResponse)
          (RoundTrip (originAlways truncatedResponse) InMemoryCache getA 0).cache getA 1).trace
          = 1 := by
  decide

/-- C10 (amended): let `r` be the cacheable final response of a `RoundTrip` for
`q1` that was not served from the cache, with a body that is read and closed
without error. The call stores `r` under the key of `q1` and returns a response
with the status of `r`, a fresh reader over exactly the bytes of the body of `r`
in place of the drained stream, and the headers of `r` with `X-Cache` set to the
single value `MISS`. The response returned by a later `RoundTrip` for a
non-bypass request with the same key, run while that entry is untouched and
within five minutes of the store, makes no forward and has the status of `r`, a
fresh reader over the same bytes, and the headers of `r` as stored with
`X-Cache` set to the single value `HIT`. -/
theorem C10_store_then_hit {σ : Type} (env : Env σ) (cache cache2 : Cache) (q1 q2 : Request)
    (s1 s2 : σ) (r : Response)
    (hmiss : cacheHit env cache q1 s1 = none)
    (hfinal : (forwardFinal env q1 s1).result = .ok r)
    (hcacheable : isCacheable r.Header = true)
    (hread : (io.ReadAll r.Body).1.2 = none)
    (hclose : (io.ReadAll r.Body).2.Close.1 = none)
    (hkey : originalKey env q2 = originalKey env q1)
    (hnobypass : strings.Contains q2.URL.RawQuery "bypass-cache=true" = false)
    (hkept : cache2.items (originalKey env q1)
      = (RoundTrip env cache q1 s1).cache.items (originalKey env q1))
    (hfresh : env.now s2 ≤ env.now (RoundTrip env cache q1 s1).world + 5 * time.Minute) :
    (RoundTrip env cache q1 s1).trace.filter Event.isStore
        = [.store (originalKey env q1) ⟨r.StatusCode, r.Header, r.Body.data⟩]
      ∧ (forwardCount (RoundTrip env cache2 q2 s2).trace = 0
          ∧ (RoundTrip env cache2 q2 s2).err = none
          ∧ ∃ r2, (RoundTrip env cache2 q2 s2).resp = some r2
              ∧ r2.StatusCode = r.StatusCode
              ∧ r2.Body = io.NopCloser r.Body.data
              ∧ (io.ReadAll r2.Body).1 = (r.Body.data, none)
              ∧ r2.Header = r.Header.Set "X-Cache" "HIT"
              ∧ r2.Header.Values "X-Cache" = ["HIT"]
              ∧ ∀ k, k ≠ "X-Cache" → r2.Header.entries k = r.Header.entries k)
      ∧ ((RoundTrip env cache q1 s1).err = none
          ∧ ∃ r1, (RoundTrip env cache q1 s1).resp = some r1
              ∧ r1.StatusCode = r.StatusCode
              ∧ r1.Body = io.NopCloser r.Body.data
              ∧ (io.ReadAll r1.Body).1 = (r.Body.data, none)
              ∧ r1.Header = r.Header.Set "X-Cache" "MISS"
              ∧ r1.Header.Values "X-Cache" = ["MISS"]
              ∧ ∀ k, k ≠ "X-Cache" → r1.Header.entries k = r.Header.entries k) := by
  have hcanon : CanonicalMIMEHeaderKey "X-Cache" = "X-Cache" := by decide
  have hns := lookupTrace_forward_no_store env q1 s1
  have heq := (RoundTrip_of_final env cache q1 s1 r hmiss hfinal).2.1 hcacheable hread hclose
  rw [heq] at hkept hfresh
  have hget := Cache.Get_Set_fresh cache (originalKey env q1) _ _ (env.now s2) cache2 hkept hfresh
  rw [← hkey] at hget
  rw [RoundTrip_of_hit env cache2 q2 s2 _ (cacheHit_of_Get env cache2 q2 s2 _ hnobypass hget),
    heq]
  refine ⟨?_, ⟨rfl, rfl, _, rfl, rfl, rfl, rfl, rfl, Header.Values_Set_self _ _ _, ?_⟩,
    ⟨rfl, _, rfl, rfl, rfl, rfl, rfl, Header.Values_Set_self _ _ _, ?_⟩⟩
  · rw [List.filter_append, filter_isStore_eq_nil _ hns]
    rfl
  · intro k hk
    exact Header.entries_Set_of_ne _ _ _ _ (by rw [hcanon]; exact hk)
  · intro k hk
    exact Header.entries_Set_of_ne _ _ _ _ (by rw [hcanon]; exact hk)

/-- C10 witness: `GET http://origin/a` twice against an origin that answers 200
with the body `hi`. -/
theorem C10_store_then_hit_witness :
    (∃ r2, (RoundTrip (originAlways okResponse)
          (RoundTrip (originAlways okResponse) InMemoryCache getA 0).cache getA 7).resp = some r2
        ∧ r2.StatusCode = 200 ∧ r2.Body = io.NopCloser [104, 105]
        ∧ r2.Header.Values "X-Cache" = ["HIT"]
        ∧ r2.Header.Values "Content-Type" = ["text/plain"])
      ∧ (∃ r1, (RoundTrip (originAlways okResponse) InMemoryCache getA 0).resp = some r1
        ∧ r1.StatusCode = 200 ∧ r1.Body = io.NopCloser [104, 105]
        ∧ r1.Header.Values "X-Cache" = ["MISS"]) :=
  have h := C10_store_then_hit (originAlways okResponse) InMemoryCache
    (RoundTrip (originAlways okResponse) InMemoryCache getA 0).cache getA getA 0 7 okResponse
    rfl rfl (by decide) rfl rfl rfl (by decide) rfl (by decide)
  ⟨h.2.1.2.2.imp fun _ h2 => ⟨h2.1, h2.2.1, h2.2.2.1, h2.2.2.2.2.2.1,
      by rw [h2.2.2.2.2.1]; decide⟩,
    h.2.2.2.imp fun _ h1 => ⟨h1.1, h1.2.1, h1.2.2.1, h1.2.2.2.2.2.1⟩⟩

theorem io.ReadAll_consumes (b : Body) (h : b.data ≠ []) : b ≠ (io.ReadAll b).2 := by
  intro heq
  have hd := congrArg Body.data heq
  exact h hd

theorem Body.Close_closes (b : Body) (h : b.closed = false) : b ≠ b.Close.2 := by
  intro heq
  have hc := congrArg Body.closed heq
  rw [h] at hc
  cases hc

theorem io.ReadAll_NopCloser (bs : Bytes) : (io.ReadAll (io.NopCloser bs)).1 = (bs, none) := rfl

/-- C11: when `RoundTrip` is not served from the cache, its forwarding ends in a
final response and that response is not cacheable, the cache is left unchanged
and nothing is stored, and the returned response carries the body stream in the
state the forwarder handed it over: no byte has been consumed and `Close` has
not been called on it, so it is neither the stream a read leaves behind (when
there are bytes to read) nor the one a close leaves behind (when it was open).
The response has the same status and the headers of the final response with
`X-Cache` set to the single value `MISS`. -/
theorem C11_not_cacheable_still_miss {σ : Type} (env : Env σ) (cache : Cache) (req : Request)
    (s : σ) (resp : Response)
    (hmiss : cacheHit env cache req s = none)
    (hfinal : (forwardFinal env req s).result = .ok resp)
    (hnot : isCacheable resp.Header = false) :
    (RoundTrip env cache req s).cache = cache
      ∧ (∀ ev ∈ (RoundTrip env cache req s).trace, ev.isStore = false)
      ∧ (RoundTrip env cache req s).err = none
      ∧ ∃ r, (RoundTrip env cache req s).resp = some r
          ∧ r.Body = resp.Body
          ∧ r.StatusCode = resp.StatusCode
          ∧ r.Header = resp.Header.Set "X-Cache" "MISS"
          ∧ r.Header.Get "X-Cache" = "MISS"
          ∧ r.Header.Values "X-Cache" = ["MISS"]
          ∧ (io.ReadAll r.Body).1 = (resp.Body.data, resp.Body.readErr)
          ∧ r.Body.closed = resp.Body.closed
          ∧ (resp.Body.data ≠ [] → r.Body ≠ (io.ReadAll resp.Body).2)
          ∧ (resp.Body.closed = false → r.Body ≠ resp.Body.Close.2) := by
  have hns := lookupTrace_forward_no_store env req s
  rcases RoundTrip_cases env cache req s with ⟨cr, hh, _⟩ | ⟨_, e, hf, _⟩ | ⟨_, r, hf, _, heq⟩ |
      ⟨_, r, e, hf, hc, _, _⟩ | ⟨_, r, hf, hc, _, _, _⟩
  · rw [hmiss] at hh; cases hh
  · rw [hfinal] at hf; cases hf
  · rw [hfinal] at hf; cases hf
    rw [heq]
    exact ⟨rfl, hns, rfl, _, rfl, rfl, rfl, rfl, Header.Get_Set_self _ _ _,
      Header.Values_Set_self _ _ _, rfl, rfl, io.ReadAll_consumes _, Body.Close_closes _⟩
  · rw [hfinal] at hf; cases hf
    rw [hnot] at hc; cases hc
  · rw [hfinal] at hf; cases hf
    rw [hnot] at hc; cases hc

/-- C11 witness: an origin answering `Cache-Control: no-cache` with a two-byte
body that would fail to read and to close; the body comes back with both bytes
unread and not closed, and differs from the stream a read would have left. -/
theorem C11_not_cacheable_still_miss_witness :
    (RoundTrip (originAlways noCacheBroken) InMemoryCache getA 0).cache = InMemoryCache
      ∧ (RoundTrip (originAlways noCacheBroken) InMemoryCache getA 0).err = none
      ∧ ∃ r, (RoundTrip (originAlways noCacheBroken) InMemoryCache getA 0).resp = some r
          ∧ r.Body = ⟨[1, 2], some "reset", some "closed", false⟩
          ∧ r.Header.Values "X-Cache" = ["MISS"]
          ∧ r.Body ≠ (io.ReadAll noCacheBroken.Body).2 :=
  have h := C11_not_cacheable_still_miss (originAlways noCacheBroken) InMemoryCache getA 0
    noCacheBroken rfl rfl (by decide)
  ⟨h.1, h.2.2.1, h.2.2.2.imp fun _ hr =>
    ⟨hr.1, hr.2.1, hr.2.2.2.2.2.1, hr.2.2.2.2.2.2.2.2.1 (by decide)⟩⟩

theorem append_cons_inj_of_not_mem (c : Char) :
    ∀ (l1 l2 r1 r2 : List Char), c ∉ l1 → c ∉ l2 → l1 ++ c :: r1 = l2 ++ c :: r2 →
      l1 = l2 ∧ r1 = r2
  | [], [], r1, r2, _, _, h => ⟨rfl, List.tail_eq_of_cons_eq h⟩
  | [], b :: l2, r1, r2, _, h2, h => by
    have hb : c = b := List.head_eq_of_cons_eq h
    exact absurd (hb ▸ List.mem_cons_self _ _) h2
  | a :: l1, [], r1, r2, h1, _, h => by
    have ha : a = c := List.head_eq_of_cons_eq h
    exact absurd (ha ▸ List.mem_cons_self _ _) h1
  | a :: l1, b :: l2, r1, r2, h1, h2, h => by
    have hab : a = b := List.head_eq_of_cons_eq h
    have ht : l1 ++ c :: r1 = l2 ++ c :: r2 := List.tail_eq_of_cons_eq h
    obtain ⟨hl, hr⟩ := append_cons_inj_of_not_mem c l1 l2 r1 r2
      (fun hm => h1 (List.mem_cons_of_mem _ hm)) (fun hm => h2 (List.mem_cons_of_mem _ hm)) ht
    exact ⟨by rw [hab, hl], hr⟩

theorem key_inj (m1 m2 u1 u2 : String) (h1 : ':' ∉ m1.toList) (h2 : ':' ∉ m2.toList)
    (h : m1 ++ ":" ++ u1 = m2 ++ ":" ++ u2) : m1 = m2 ∧ u1 = u2 := by
  have hl : m1.toList ++ ':' :: u1.toList = m2.toList ++ ':' :: u2.toList := by
    have := congrArg String.toList h
    simpa [String.toList, String.data_append] using this
  obtain ⟨ha, hb⟩ := append_cons_inj_of_not_mem ':' _ _ _ _ h1 h2 hl
  exact ⟨String.ext ha, String.ext hb⟩

/-- C12: for two requests whose methods hold no `:` character, the cache keys
`method + ":" + URL string` are equal if and only if the methods are equal and
the URL strings are equal; and the key of a request does not change when its
headers, body or `Host` are replaced. -/
theorem C12_key_unique {σ : Type} (env : Env σ) (q1 q2 : Request) :
    (':' ∉ q1.Method.toList → ':' ∉ q2.Method.toList →
        (originalKey env q1 = originalKey env q2 ↔
          q1.Method = q2.Method ∧ env.urlString q1.URL = env.urlString q2.URL))
      ∧ (originalKey env q1 = q1.Method ++ ":" ++ env.urlString q1.URL)
      ∧ ∀ (h : Header) (b : Option Body) (host : String),
          originalKey env { q1 with Header := h, Body := b, Host := host } = originalKey env q1 := by
  refine ⟨?_, rfl, fun _ _ _ => rfl⟩
  intro h1 h2
  constructor
  · intro h
    exact key_inj _ _ _ _ h1 h2 h
  · rintro ⟨hm, hu⟩
    unfold originalKey
    rw [hm, hu]

/-- C12 witness: `GET` and `POST` on the same URL have different keys, and the
key of `POST http://origin/form` ignores its body. -/
theorem C12_key_unique_witness :
    (originalKey originSeeOther getA = originalKey originSeeOther { getA with Method := "POST" } ↔
        getA.Method = "POST"
          ∧ sampleURLString getA.URL = sampleURLString getA.URL)
      ∧ originalKey originSeeOther { postForm with Header := Header.empty, Body := none, Host := "x" }
          = originalKey originSeeOther postForm :=
  ⟨(C12_key_unique originSeeOther getA { getA with Method := "POST" }).1 (by decide) (by decide),
    (C12_key_unique originSeeOther postForm getA).2.2 Header.empty none "x"⟩

/-- C13, as stated, fails when the 3xx response is cacheable and its body cannot
be read: an origin answering `302` without `Location` is forwarded to once, the
loop stops, and `RoundTrip` returns the read error: no response, nothing stored. -/
theorem C13_counterexample :
    (takesStep (originAlways foundNowhereTruncated) getA foundNowhereTruncated).isSome = false
      ∧ forwardCount (RoundTrip (originAlways foundNowhereTruncated) InMemoryCache getA 0).trace = 1
      ∧ (forwardFinal (originAlways foundNowhereTruncated) getA 0).finalStatus = some (302, true)
      ∧ (RoundTrip (originAlways foundNowhereTruncated) InMemoryCache getA 0).resp.isSome = false
      ∧ (RoundTrip (originAlways foundNowhereTruncated) InMemoryCache getA 0).err
          = some "unexpected EOF"
      ∧ (RoundTrip (originAlways foundNowhereTruncated) InMemoryCache getA 0).trace.any Event.isStore
          = false := by
  decide

theorem takesStep_of_badLocation {σ : Type} (env : Env σ) (req : Request) (resp : Response)
    (h : badLocation env req resp) : takesStep env req resp = none := by
  obtain ⟨h1, h2⟩ := h
  unfold takesStep
  rw [if_pos h1]
  by_cases hl : resp.Header.Get "Location" = ""
  · rw [if_pos hl]
  · rw [if_neg hl]
    rcases h2 with h2 | ⟨e, he⟩
    · exact absurd h2 hl
    · rw [he]

/-- Wherever a forward answered by a response on which the loop takes no step
sits in the trace of the loop, it is the last forward, its response is the
result, and the request is left as it was forwarded. -/
theorem followRedirects_last {σ : Type} (env : Env σ) (n : Nat) (req : Request)
    (resp : Response) (s : σ) (before after : List Event) (r : Request) (p : Response)
    (htrace : .forward req (.ok resp) :: (followRedirects env n req resp s).trace
      = before ++ .forward r (.ok p) :: after)
    (hstop : takesStep env r p = none) :
    after = [] ∧ (followRedirects env n req resp s).result = .ok p
      ∧ (followRedirects env n req resp s).req = r := by
  induction n generalizing req resp s before with
  | zero =>
    rw [followRedirects_zero] at htrace ⊢
    rcases List.cons_eq_append_iff.mp htrace with ⟨_, h⟩ | ⟨b, _, h⟩
    · injection h with h1 h2
      injection h1 with hr hp
      injection hp with hp
      subst hr hp
      exact ⟨h2, rfl, rfl⟩
    · cases b <;> cases h
  | succ n ih =>
    cases hstep : takesStep env req resp with
    | none =>
      rw [followRedirects_stop env _ req resp s hstep] at htrace ⊢
      rcases List.cons_eq_append_iff.mp htrace with ⟨_, h⟩ | ⟨b, _, h⟩
      · injection h with h1 h2
        injection h1 with hr hp
        injection hp with hp
        subst hr hp
        exact ⟨h2, rfl, rfl⟩
      · cases b <;> cases h
    | some u =>
      rw [followRedirects_step env n req resp s u hstep] at htrace ⊢
      rcases hf : env.forward (redirectRequest req resp u) s with ⟨res, s2⟩
      rw [hf] at htrace
      rcases List.cons_eq_append_iff.mp htrace with ⟨_, h⟩ | ⟨b, _, h⟩
      · injection h with h1 h2
        injection h1 with hr hp
        injection hp with hp
        subst hr hp
        rw [hstep] at hstop
        cases hstop
      · cases res with
        | error e =>
          rcases List.cons_eq_append_iff.mp h with ⟨_, h'⟩ | ⟨b', _, h'⟩
          · injection h' with h1 _
            injection h1 with _ hp
            cases hp
          · cases b' <;> cases h'
        | ok resp2 =>
          exact ih (redirectRequest req resp u) resp2 s2 b h

theorem forwardFinal_last {σ : Type} (env : Env σ) (req : Request) (s : σ)
    (before after : List Event) (r : Request) (p : Response)
    (htrace : (forwardFinal env req s).trace = before ++ .forward r (.ok p) :: after)
    (hstop : takesStep env r p = none) :
    after = [] ∧ (forwardFinal env req s).result = .ok p ∧ (forwardFinal env req s).req = r := by
  unfold forwardFinal at htrace ⊢
  rcases hf : env.forward req s with ⟨res, s2⟩
  rw [hf] at htrace
  cases res with
  | error e =>
    rcases List.cons_eq_append_iff.mp htrace with ⟨_, h⟩ | ⟨b, _, h⟩
    · injection h with h1 _
      injection h1 with _ hp
      cases hp
    · cases b <;> cases h
  | ok resp => exact followRedirects_last env 10 req resp s2 before after r p htrace hstop

/-- C13 (amended): when a forward of `RoundTrip` is answered by a 3xx response
whose `Location` is absent, empty or unparseable against the request URL, the
loop stops without error: that forward is the last one, the response is the
final response, and the request keeps the method, body and URL it was forwarded
with. If the request was not served from the cache, `RoundTrip` returns that
response with `X-Cache` set to `MISS`, and stores it under the original key when
it is cacheable, unless it is cacheable and reading or closing its body fails:
then `RoundTrip` returns that error, no response, and stores nothing. -/
theorem C13_bad_location_ends_chain {σ : Type} (env : Env σ) (cache : Cache) (req0 : Request)
    (s : σ) (before after : List Event) (r : Request) (p : Response)
    (htrace : (forwardFinal env req0 s).trace = before ++ .forward r (.ok p) :: after)
    (hbad : badLocation env r p) :
    after = [] ∧ (forwardFinal env req0 s).result = .ok p ∧ (forwardFinal env req0 s).req = r
      ∧ (cacheHit env cache req0 s = none →
          (RoundTrip env cache req0 s).req = r
            ∧ (isCacheable p.Header = false →
                (RoundTrip env cache req0 s).err = none
                  ∧ (RoundTrip env cache req0 s).cache = cache
                  ∧ ∃ x, (RoundTrip env cache req0 s).resp = some x
                      ∧ x.StatusCode = p.StatusCode ∧ x.Body = p.Body
                      ∧ x.Header = p.Header.Set "X-Cache" "MISS")
            ∧ (isCacheable p.Header = true → (io.ReadAll p.Body).1.2 = none →
                (io.ReadAll p.Body).2.Close.1 = none →
                (RoundTrip env cache req0 s).err = none
                  ∧ (RoundTrip env cache req0 s).cache.Get (originalKey env req0)
                      (env.now (RoundTrip env cache req0 s).world)
                      = some (.cachedResponse ⟨p.StatusCode, p.Header, p.Body.data⟩)
                  ∧ ∃ x, (RoundTrip env cache req0 s).resp = some x
                      ∧ x.StatusCode = p.StatusCode
                      ∧ (io.ReadAll x.Body).1 = (p.Body.data, none)
                      ∧ x.Header = p.Header.Set "X-Cache" "MISS")
            ∧ (isCacheable p.Header = true → ∀ e,
                ((io.ReadAll p.Body).1.2 = some e
                  ∨ ((io.ReadAll p.Body).1.2 = none ∧ (io.ReadAll p.Body).2.Close.1 = some e)) →
                (RoundTrip env cache req0 s).resp = none
                  ∧ (RoundTrip env cache req0 s).err = some e
                  ∧ (RoundTrip env cache req0 s).cache = cache)) := by
  obtain ⟨hafter, hres, hreq⟩ := forwardFinal_last env req0 s before after r p htrace
    (takesStep_of_badLocation env r p hbad)
  refine ⟨hafter, hres, hreq, ?_⟩
  intro hmiss
  obtain ⟨h1, h2, h3⟩ := RoundTrip_of_final env cache req0 s p hmiss hres
  refine ⟨?_, ?_, ?_, ?_⟩
  · by_cases hc : isCacheable p.Header = true
    · cases hr : (io.ReadAll p.Body).1.2 with
      | some e => rw [h3 hc e (Or.inl hr)]; exact hreq
      | none =>
        cases hcl : (io.ReadAll p.Body).2.Close.1 with
        | some e => rw [h3 hc e (Or.inr ⟨hr, hcl⟩)]; exact hreq
        | none => rw [h2 hc hr hcl]; exact hreq
    · rw [h1 (by simpa using hc)]; exact hreq
  · intro hc
    rw [h1 hc]
    exact ⟨rfl, rfl, _, rfl, rfl, rfl, rfl⟩
  · intro hc hr hcl
    rw [h2 hc hr hcl]
    have h5 : (0 : Int) ≤ 5 * time.Minute := by decide
    exact ⟨rfl, Cache.Get_Set_fresh cache _ _ _ _ _ rfl (le_add_of_nonneg_right h5),
      _, rfl, rfl, rfl, rfl⟩
  · intro hc e he
    rw [h3 hc e he]
    exact ⟨rfl, rfl, rfl⟩

/-- C13 witness: a POST answered by `303 Location: /done`, then the GET of
`/done` answered by `301` with an unparseable `Location`: the second forward is
the last, the request stays `GET /done`, and the 301 is returned and stored
under the key of the POST. -/
theorem C13_bad_location_ends_chain_witness :
    (forwardFinal (originSeeOtherThen movedBadLocation) postForm 0).result = .ok movedBadLocation
      ∧ (forwardFinal (originSeeOtherThen movedBadLocation) postForm 0).req
          = redirectRequest postForm seeOtherDone ⟨"http", "origin", "/done", ""⟩
      ∧ (RoundTrip (originSeeOtherThen movedBadLocation) InMemoryCache postForm 0).cache.Get
          "POST:http://origin/form" 2
          = some (.cachedResponse ⟨301, movedBadLocation.Header, []⟩) :=
  have h := C13_bad_location_ends_chain (originSeeOtherThen movedBadLocation) InMemoryCache
    postForm 0 [.forward postForm (.ok seeOtherDone)] []
    (redirectRequest postForm seeOtherDone ⟨"http", "origin", "/done", ""⟩) movedBadLocation rfl
    ⟨by decide, Or.inr ⟨"invalid URL escape", rfl⟩⟩
  ⟨h.2.1, h.2.2.1, ((h.2.2.2 rfl).2.2.1 (by decide) rfl rfl).2.1⟩

/-- C14: after `ClearCache` a lookup of any key, at any instant, reports not
found, whatever the cache held. So the next `RoundTrip` of any request is not
served from the cache: it forwards the request to the origin, every response it
returns carries `X-Cache` equal to the single value `MISS`, and it returns a
response whenever it returns no error, in particular whenever forwarding ends
in a final response that is not cacheable or whose body is read and closed
without error. -/
theorem C14_flush_then_miss {σ : Type} (env : Env σ) (cache : Cache) (k : String) (now : Int)
    (req : Request) (s : σ) :
    ∃ flushed, ClearCache (some cache) = some flushed
      ∧ flushed.Get k now = none
      ∧ cacheHit env flushed req s = none
      ∧ Event.forward req (env.forward req s).1 ∈ (RoundTrip env flushed req s).trace
      ∧ 1 ≤ forwardCount (RoundTrip env flushed req s).trace
      ∧ (∀ resp, (RoundTrip env flushed req s).resp = some resp →
          resp.Header.Get "X-Cache" = "MISS" ∧ resp.Header.Values "X-Cache" = ["MISS"])
      ∧ ((RoundTrip env flushed req s).err = none →
          ∃ resp, (RoundTrip env flushed req s).resp = some resp)
      ∧ (∀ final, (forwardFinal env req s).result = .ok final →
          (isCacheable final.Header = false
            ∨ ((io.ReadAll final.Body).1.2 = none
              ∧ (io.ReadAll final.Body).2.Close.1 = none)) →
          ∃ resp, (RoundTrip env flushed req s).resp = some resp
            ∧ resp.StatusCode = final.StatusCode
            ∧ resp.Header.Values "X-Cache" = ["MISS"]) := by
  have hget : ∀ j t, cache.Flush.Get j t = none := fun _ _ => rfl
  have hmiss : cacheHit env cache.Flush req s = none := by
    unfold cacheHit
    split
    · rfl
    · rw [hget]
  have hfw := forwardFinal_trace env req s
  have hmem : Event.forward req (env.forward req s).1 ∈ (forwardFinal env req s).trace := by
    cases htr : (forwardFinal env req s).trace with
    | nil => rw [htr] at hfw; simp at hfw
    | cons a t =>
      rw [htr] at hfw
      have := hfw.2.2
      simp only [List.head?_cons, Option.some.injEq] at this
      rw [this]
      exact List.mem_cons_self _ _
  have hpos : 1 ≤ (forwardFinal env req s).trace.length :=
    List.length_pos_of_mem hmem
  have hcount := (RoundTrip_forwardCount env cache.Flush req s).2 hmiss
  refine ⟨cache.Flush, rfl, hget k now, hmiss, ?_, by rw [hcount]; exact hpos, ?_, ?_, ?_⟩
  · rcases RoundTrip_cases env cache.Flush req s with ⟨cr, hh, _⟩ | ⟨_, e, _, heq⟩ |
      ⟨_, r, _, _, heq⟩ | ⟨_, r, e, _, _, _, heq⟩ | ⟨_, r, _, _, _, _, heq⟩
    · rw [hmiss] at hh; cases hh
    · rw [heq]; exact List.mem_append_right _ hmem
    · rw [heq]; exact List.mem_append_right _ hmem
    · rw [heq]; exact List.mem_append_right _ hmem
    · rw [heq]; exact List.mem_append_left _ (List.mem_append_right _ hmem)
  · intro resp hresp
    rcases RoundTrip_cases env cache.Flush req s with ⟨cr, hh, _⟩ | ⟨_, e, _, heq⟩ |
      ⟨_, r, _, _, heq⟩ | ⟨_, r, e, _, _, _, heq⟩ | ⟨_, r, _, _, _, _, heq⟩
    · rw [hmiss] at hh; cases hh
    · rw [heq] at hresp; cases hresp
    · rw [heq] at hresp; cases hresp
      exact ⟨Header.Get_Set_self _ _ _, Header.Values_Set_self _ _ _⟩
    · rw [heq] at hresp; cases hresp
    · rw [heq] at hresp; cases hresp
      exact ⟨Header.Get_Set_self _ _ _, Header.Values_Set_self _ _ _⟩
  · intro herr
    rcases RoundTrip_cases env cache.Flush req s with ⟨cr, hh, _⟩ | ⟨_, e, _, heq⟩ |
      ⟨_, r, _, _, heq⟩ | ⟨_, r, e, _, _, _, heq⟩ | ⟨_, r, _, _, _, _, heq⟩
    · rw [hmiss] at hh; cases hh
    · rw [heq] at herr; cases herr
    · rw [heq]; exact ⟨_, rfl⟩
    · rw [heq] at herr; cases herr
    · rw [heq]; exact ⟨_, rfl⟩
  · intro final hfinal hok
    obtain ⟨hn, hs, _⟩ := RoundTrip_of_final env cache.Flush req s final hmiss hfinal
    by_cases hc : isCacheable final.Header = true
    · rcases hok with hnc | ⟨hr, hcl⟩
      · rw [hc] at hnc; cases hnc
      · rw [hs hc hr hcl]
        exact ⟨_, rfl, rfl, Header.Values_Set_self _ _ _⟩
    · rw [hn (by simpa using hc)]
      exact ⟨_, rfl, rfl, Header.Values_Set_self _ _ _⟩

/-- C14 witness: `GET http://origin/a` is cached by a first `RoundTrip`; after
the flush the same request is forwarded again and answered with `MISS`. -/
theorem C14_flush_then_miss_witness :
    ((RoundTrip (originAlways okResponse) InMemoryCache getA 0).cache.Get
        "GET:http://origin/a" 1).isSome = true
      ∧ ∃ flushed,
          ClearCache (some (RoundTrip (originAlways okResponse) InMemoryCache getA 0).cache)
            = some flushed
          ∧ flushed.Get "GET:http://origin/a" 1 = none
          ∧ 1 ≤ forwardCount (RoundTrip (originAlways okResponse) flushed getA 1).trace
          ∧ ∃ resp, (RoundTrip (originAlways okResponse) flushed getA 1).resp = some resp
              ∧ resp.Header.Values "X-Cache" = ["MISS"] := by
  refine ⟨by decide, ?_⟩
  obtain ⟨flushed, h1, h2, _, _, h5, h6, h7, _⟩ := C14_flush_then_miss (originAlways okResponse)
    (RoundTrip (originAlways okResponse) InMemoryCache getA 0).cache "GET:http://origin/a" 1
    getA 1
  have hf : flushed = (RoundTrip (originAlways okResponse) InMemoryCache getA 0).cache.Flush :=
    (Option.some.inj h1).symm
  subst hf
  exact ⟨_, rfl, h2, h5, (h7 rfl).imp fun resp hr => ⟨hr, (h6 resp hr).2⟩⟩

theorem Header.Get_eq_first (h : Header) (key : String) :
    h.Get key = h.first (CanonicalMIMEHeaderKey key) := rfl

theorem Header.entries_Del_self (h : Header) (key : String) :
    (h.Del key).entries (CanonicalMIMEHeaderKey key) = none :=
  if_pos rfl

theorem Header.entries_Del_of_ne (h : Header) (key k : String)
    (hk : k ≠ CanonicalMIMEHeaderKey key) : (h.Del key).entries k = h.entries k :=
  if_neg hk

theorem proxyHeaders_canonical : ∀ h ∈ proxyHeaders, CanonicalMIMEHeaderKey h = h := by
  decide

/-- C15: after the director has run, the URL scheme and URL host of the request
are those of the origin, its `Host` is the origin's host, its path, query,
method and body are unchanged, none of `X-Forwarded-For`, `X-Forwarded-Host`,
`X-Forwarded-Proto`, `Via`, `Forwarded` is present, and every other header is
unchanged. -/
theorem C15_director_rewrites (originURL : URL) (req : Request) :
    (director originURL req).URL.Scheme = originURL.Scheme
      ∧ (director originURL req).URL.Host = originURL.Host
      ∧ (director originURL req).Host = originURL.Host
      ∧ (director originURL req).URL.Path = req.URL.Path
      ∧ (director originURL req).URL.RawQuery = req.URL.RawQuery
      ∧ (director originURL req).Method = req.Method
      ∧ (director originURL req).Body = req.Body
      ∧ (∀ h ∈ proxyHeaders, (director originURL req).Header.entries h = none
          ∧ (director originURL req).Header.Values h = []
          ∧ (director originURL req).Header.Get h = "")
      ∧ (∀ k, k ∉ proxyHeaders →
          (director originURL req).Header.entries k = req.Header.entries k) := by
  refine ⟨rfl, rfl, rfl, rfl, rfl, rfl, rfl, ?_, ?_⟩
  · have hnone : ∀ h ∈ proxyHeaders, (director originURL req).Header.entries h = none := by
      intro h hh
      simp only [proxyHeaders, List.mem_cons, List.mem_singleton, List.not_mem_nil,
        or_false] at hh
      have c1 : CanonicalMIMEHeaderKey "X-Forwarded-For" = "X-Forwarded-For" := by decide
      have c2 : CanonicalMIMEHeaderKey "X-Forwarded-Host" = "X-Forwarded-Host" := by decide
      have c3 : CanonicalMIMEHeaderKey "X-Forwarded-Proto" = "X-Forwarded-Proto" := by decide
      have c4 : CanonicalMIMEHeaderKey "Via" = "Via" := by decide
      have c5 : CanonicalMIMEHeaderKey "Forwarded" = "Forwarded" := by decide
      rcases hh with rfl | rfl | rfl | rfl | rfl <;>
        simp [director, Header.Del, c1, c2, c3, c4, c5]
    intro h hh
    have hc := proxyHeaders_canonical h hh
    refine ⟨hnone h hh, ?_, ?_⟩
    · unfold Header.Values
      rw [hc, hnone h hh]
    · unfold Header.Get
      rw [hc, hnone h hh]
  · intro k hk
    simp only [proxyHeaders, List.mem_cons, List.mem_singleton, List.not_mem_nil, or_false,
      not_or] at hk
    obtain ⟨h1, h2, h3, h4, h5⟩ := hk
    have c1 : CanonicalMIMEHeaderKey "X-Forwarded-For" = "X-Forwarded-For" := by decide
    have c2 : CanonicalMIMEHeaderKey "X-Forwarded-Host" = "X-Forwarded-Host" := by decide
    have c3 : CanonicalMIMEHeaderKey "X-Forwarded-Proto" = "X-Forwarded-Proto" := by decide
    have c4 : CanonicalMIMEHeaderKey "Via" = "Via" := by decide
    have c5 : CanonicalMIMEHeaderKey "Forwarded" = "Forwarded" := by decide
    simp [director, Header.Del, c1, c2, c3, c4, c5, h1, h2, h3, h4, h5]

/-- C15 witness: an inbound request with `Via`, `X-Forwarded-For` (empty first
value) and `Accept`, sent to the origin `https://origin.example`. -/
theorem C15_director_rewrites_witness :
    (director ⟨"https", "origin.example", "", ""⟩ inboundRequest).Header.entries "Via" = none
      ∧ (director ⟨"https", "origin.example", "", ""⟩ inboundRequest).Header.entries
          "X-Forwarded-For" = none
      ∧ (director ⟨"https", "origin.example", "", ""⟩ inboundRequest).Header.entries "Accept"
          = some ["*/*"]
      ∧ (director ⟨"https", "origin.example", "", ""⟩ inboundRequest).URL
          = ⟨"https", "origin.example", "/items", "page=2"⟩ :=
  ⟨((C15_director_rewrites ⟨"https", "origin.example", "", ""⟩ inboundRequest).2.2.2.2.2.2.2.1
      "Via" (by decide)).1,
    ((C15_director_rewrites ⟨"https", "origin.example", "", ""⟩ inboundRequest).2.2.2.2.2.2.2.1
      "X-Forwarded-For" (by decide)).1,
    ((C15_director_rewrites ⟨"https", "origin.example", "", ""⟩ inboundRequest).2.2.2.2.2.2.2.2
      "Accept" (by decide)).trans rfl,
    by decide⟩

theorem removeHopByHop_entries_self (hd : Header) (h : String) :
    (removeHopByHop hd h).entries (CanonicalMIMEHeaderKey h)
      = if hd.first (CanonicalMIMEHeaderKey h) ≠ "" then none
        else hd.entries (CanonicalMIMEHeaderKey h) := by
  unfold removeHopByHop
  rw [Header.Get_eq_first]
  by_cases hne : hd.first (CanonicalMIMEHeaderKey h) ≠ ""
  · rw [if_pos hne, if_pos hne]
    exact Header.entries_Del_self hd h
  · rw [if_neg hne, if_neg hne]

/-- What the removal loop leaves under a raw key: nothing when the key is the
canonical form of a listed header and its first value is non-empty, and the
entry as it was otherwise. -/
theorem foldl_removeHopByHop_eq (l : List String) (hd : Header) (k : String) :
    (l.foldl removeHopByHop hd).entries k
      = if k ∈ l.map CanonicalMIMEHeaderKey ∧ hd.first k ≠ "" then none else hd.entries k := by
  induction l generalizing hd with
  | nil => simp
  | cons a l ih =>
    rw [List.foldl_cons, ih]
    by_cases hk : k = CanonicalMIMEHeaderKey a
    · subst hk
      by_cases hne : hd.first (CanonicalMIMEHeaderKey a) ≠ ""
      · have hent := removeHopByHop_entries_self hd a
        rw [if_pos hne] at hent
        have hfirst : (removeHopByHop hd a).first (CanonicalMIMEHeaderKey a) = "" := by
          unfold Header.first
          rw [hent]
        rw [if_neg (by rw [hfirst]; exact fun h => h.2 rfl), hent,
          if_pos ⟨by simp, hne⟩]
      · have hrem : removeHopByHop hd a = hd := by
          unfold removeHopByHop
          rw [Header.Get_eq_first, if_neg hne]
        rw [hrem, if_neg (fun h => hne h.2), if_neg (fun h => hne h.2)]
    · have hent := removeHopByHop_entries hd a k hk
      have hfirst : (removeHopByHop hd a).first k = hd.first k := by
        unfold Header.first
        rw [hent]
      rw [hfirst, hent]
      simp only [List.map_cons, List.mem_cons, hk, false_or]

theorem foldl_removeHopByHop_first (l : List String) (hd : Header) (k : String)
    (hk : k ∈ l.map CanonicalMIMEHeaderKey) : (l.foldl removeHopByHop hd).first k = "" := by
  unfold Header.first
  rw [foldl_removeHopByHop_eq]
  by_cases hne : hd.first k ≠ ""
  · rw [if_pos ⟨hk, hne⟩]
  · rw [if_neg (fun h => hne h.2)]
    exact not_not.mp hne

/-- A second run of the removal loop changes nothing. -/
theorem foldl_removeHopByHop_idem (l : List String) (hd : Header) (v : String)
    (hx : CanonicalMIMEHeaderKey "X-Cache" ∉ l.map CanonicalMIMEHeaderKey) :
    l.foldl removeHopByHop ((l.foldl removeHopByHop hd).Set "X-Cache" v)
      = (l.foldl removeHopByHop hd).Set "X-Cache" v := by
  apply Header.ext
  funext k
  rw [foldl_removeHopByHop_eq]
  by_cases hk : k ∈ l.map CanonicalMIMEHeaderKey
  · have hne : k ≠ CanonicalMIMEHeaderKey "X-Cache" := fun h => hx (h ▸ hk)
    have hfirst : ((l.foldl removeHopByHop hd).Set "X-Cache" v).first k = "" := by
      have := foldl_removeHopByHop_first l hd k hk
      unfold Header.first at this ⊢
      rw [Header.entries_Set_of_ne _ _ _ _ hne]
      exact this
    rw [if_neg (fun h => h.2 hfirst)]
  · rw [if_neg (fun h => hk h.1)]

theorem Header.Set_Set (h : Header) (k v w : String) : (h.Set k v).Set k w = h.Set k w := by
  apply Header.ext
  funext j
  unfold Header.Set
  by_cases hj : j = CanonicalMIMEHeaderKey k
  · simp [hj]
  · simp [hj]

/-- C16: applying `ModifyResponse` twice yields exactly the response that
applying it once yields: same headers, status, body and request. -/
theorem C16_modify_response_idempotent (resp : Response) :
    ModifyResponse (ModifyResponse resp) = ModifyResponse resp
      ∧ (ModifyResponse (ModifyResponse resp)).Header = (ModifyResponse resp).Header
      ∧ (ModifyResponse (ModifyResponse resp)).StatusCode = (ModifyResponse resp).StatusCode
      ∧ (ModifyResponse (ModifyResponse resp)).Body = (ModifyResponse resp).Body := by
  have hx : CanonicalMIMEHeaderKey "X-Cache" ∉ hopByHopHeaders.map CanonicalMIMEHeaderKey := by
    decide
  have hne : ∀ x : String, (if x = "" then "MISS" else x) ≠ "" := by
    intro x
    by_cases h : x = ""
    · rw [if_pos h]; decide
    · rw [if_neg h]; exact h
  have hmain : ModifyResponse (ModifyResponse resp) = ModifyResponse resp := by
    unfold ModifyResponse
    simp only
    rw [foldl_removeHopByHop_idem _ _ _ hx, Header.Get_Set_self, if_neg (hne _), Header.Set_Set]
  exact ⟨hmain, by rw [hmain], by rw [hmain], by rw [hmain]⟩

/-- C17, as stated, fails when the body of the cacheable final response cannot
be read: with an entry already stored under the key of
`GET http://origin/a?bypass-cache=true`, a bypass request answered by a cacheable
200 whose body breaks off returns the read error, stores nothing, and the old
entry stays under the key. -/
theorem C17_counterexample :
    (RoundTrip (originAlways okResponse) InMemoryCache getBypass 0).cache.cachedBody
        "GET:http://origin/a?bypass-cache=true" = some [104, 105]
      ∧ strings.Contains getBypass.URL.RawQuery "bypass-cache=true" = true
      ∧ (forwardFinal (originAlways truncatedResponse) getBypass 1).finalStatus = some (200, true)
      ∧ (RoundTrip (originAlways truncatedResponse)
          (RoundTrip (originAlways okResponse) InMemoryCache getBypass 0).cache getBypass 1).err
          = some "unexpected EOF"
      ∧ (RoundTrip (originAlways truncatedResponse)
          (RoundTrip (originAlways okResponse) InMemoryCache getBypass 0).cache getBypass
          1).trace.any Event.isStore = false
      ∧ (RoundTrip (originAlways truncatedResponse)
          (RoundTrip (originAlways okResponse) InMemoryCache getBypass 0).cache getBypass
          1).cache.cachedBody "GET:http://origin/a?bypass-cache=true" = some [104, 105] := by
  decide

theorem Cache.items_Set_self (c : Cache) (k : String) (x : Object) (t : Int) :
    (c.Set k x (5 * time.Minute) t).items k = some ⟨x, t + 5 * time.Minute⟩ := by
  have hm : (5 * time.Minute : Int) = 300000000000 := by decide
  unfold Cache.Set
  simp [hm]

/-- C17 (amended): for a request whose raw query contains `bypass-cache=true`
and whose forwarding ends in a cacheable final response whose body is read and
closed without error, `RoundTrip` makes no lookup and puts the final response
under the request's key with a five-minute expiry, whatever entry was there
before; every other key keeps its entry; and the returned pair, the cache and
the world are those that the code after the lookup of a non-bypass miss
yields. -/
theorem C17_bypass_still_stores {σ : Type} (env : Env σ) (cache : Cache) (req : Request)
    (s : σ) (resp : Response)
    (hbypass : strings.Contains req.URL.RawQuery "bypass-cache=true" = true)
    (hfinal : (forwardFinal env req s).result = .ok resp)
    (hcacheable : isCacheable resp.Header = true)
    (hread : (io.ReadAll resp.Body).1.2 = none)
    (hclose : (io.ReadAll resp.Body).2.Close.1 = none) :
    (∀ ev ∈ (RoundTrip env cache req s).trace, ev.isLookup = false)
      ∧ (RoundTrip env cache req s).trace.filter Event.isStore
          = [.store (originalKey env req) ⟨resp.StatusCode, resp.Header, resp.Body.data⟩]
      ∧ (RoundTrip env cache req s).cache.items (originalKey env req)
          = some ⟨.cachedResponse ⟨resp.StatusCode, resp.Header, resp.Body.data⟩,
              env.now (RoundTrip env cache req s).world + 5 * time.Minute⟩
      ∧ (∀ k, k ≠ originalKey env req →
          (RoundTrip env cache req s).cache.items k = cache.items k)
      ∧ (RoundTrip env cache req s).cache
          = (performRequest env cache (originalKey env req) req s
              [.lookup (originalKey env req)]).cache
      ∧ (RoundTrip env cache req s).resp
          = (performRequest env cache (originalKey env req) req s
              [.lookup (originalKey env req)]).resp
      ∧ (RoundTrip env cache req s).err
          = (performRequest env cache (originalKey env req) req s
              [.lookup (originalKey env req)]).err := by
  have hmiss := cacheHit_of_bypass env cache req s hbypass
  have hns := lookupTrace_forward_no_store env req s
  have hfw := (forwardFinal_trace env req s).1
  have heq := (RoundTrip_of_final env cache req s resp hmiss hfinal).2.1 hcacheable hread hclose
  rw [performRequest_of_ok env cache _ req s _ resp hfinal,
    cacheFinal_stored env cache _ _ resp _ _ hcacheable hread hclose, heq]
  refine ⟨?_, ?_, Cache.items_Set_self _ _ _ _, fun k hk => if_neg hk, rfl, rfl, rfl⟩
  · rw [lookupTrace_of_bypass env req hbypass]
    intro ev hev
    rcases List.mem_append.mp hev with h | h
    · exact not_lookup_of_forward ev (hfw ev h)
    · rw [List.mem_singleton] at h; subst h; rfl
  · rw [List.filter_append, filter_isStore_eq_nil _ hns]
    rfl

/-- C17 witness: with a 200 entry stored under the key of the bypass request, a
bypass request answered by a `302` without `Location` replaces the entry. -/
theorem C17_bypass_still_stores_witness :
    (RoundTrip (originAlways okResponse) InMemoryCache getBypass 0).cache.cachedBody
        "GET:http://origin/a?bypass-cache=true" = some [104, 105]
      ∧ (RoundTrip (originAlways foundNowhere)
          (RoundTrip (originAlways okResponse) InMemoryCache getBypass 0).cache getBypass
          1).cache.items "GET:http://origin/a?bypass-cache=true"
          = some ⟨.cachedResponse ⟨302, foundNowhere.Header, [111]⟩, 2 + 5 * time.Minute⟩ :=
  ⟨by decide,
    (C17_bypass_still_stores (originAlways foundNowhere)
      (RoundTrip (originAlways okResponse) InMemoryCache getBypass 0).cache getBypass 1
      foundNowhere (by decide) rfl (by decide) rfl rfl).2.2.1⟩

/-- C18, as stated, fails in two ways. On a bypass URL: the `302` without
`Location` answered to `GET http://origin/a?bypass-cache=true` is stored, yet the
next identical request is forwarded again and answered `MISS`. On a body that
cannot be read: the cacheable `302` answered to `GET http://origin/a` is not
stored, and the next identical request is forwarded again. -/
theorem C18_counterexample :
    ((forwardFinal (originAlways foundNowhere) getBypass 0).finalStatus = some (302, true)
      ∧ (RoundTrip (originAlways foundNowhere) InMemoryCache getBypass 0).cache.cachedBody
          "GET:http://origin/a?bypass-cache=true" = some [111]
      ∧ forwardCount (RoundTrip (originAlways foundNowhere)
          (RoundTrip (originAlways foundNowhere) InMemoryCache getBypass 0).cache getBypass
          1).trace = 1
      ∧ (RoundTrip (originAlways foundNowhere)
          (RoundTrip (originAlways foundNowhere) InMemoryCache getBypass 0).cache getBypass
          1).xCacheIs "MISS" = true)
      ∧ ((forwardFinal (originAlways foundNowhereTruncated) getA 0).finalStatus = some (302, true)
        ∧ (RoundTrip (originAlways foundNowhereTruncated) InMemoryCache getA 0).trace.any
            Event.isStore = false
        ∧ forwardCount (RoundTrip (originAlways foundNowhereTruncated)
            (RoundTrip (originAlways foundNowhereTruncated) InMemoryCache getA 0).cache getA
            1).trace = 1
        ∧ (RoundTrip (originAlways foundNowhereTruncated)
            (RoundTrip (originAlways foundNowhereTruncated) InMemoryCache getA 0).cache getA
            1).resp.isSome = false) := by
  decide

/-- C18 (amended): for a request whose raw query does not contain
`bypass-cache=true` and that is not served from the cache, when the
redirect-follow loop ends on a response that is still a 3xx, is cacheable, and
whose body is read and closed without error, `RoundTrip` stores that response
under the original key; the next identical request, run while that entry is
untouched and within five minutes of the store, makes no forward and is
answered from the cache with that redirect status, the same body bytes and
`X-Cache` equal to the single value `HIT`. -/
theorem C18_redirect_response_cached {σ : Type} (env : Env σ) (cache cache2 : Cache)
    (req : Request) (s s2 : σ) (resp : Response)
    (hnobypass : strings.Contains req.URL.RawQuery "bypass-cache=true" = false)
    (hmiss : cacheHit env cache req s = none)
    (hfinal : (forwardFinal env req s).result = .ok resp)
    (hredirect : resp.StatusCode ≥ 300 ∧ resp.StatusCode < 400)
    (hcacheable : isCacheable resp.Header = true)
    (hread : (io.ReadAll resp.Body).1.2 = none)
    (hclose : (io.ReadAll resp.Body).2.Close.1 = none)
    (hkept : cache2.items (originalKey env req)
      = (RoundTrip env cache req s).cache.items (originalKey env req))
    (hfresh : env.now s2 ≤ env.now (RoundTrip env cache req s).world + 5 * time.Minute) :
    (RoundTrip env cache req s).trace.filter Event.isStore
        = [.store (originalKey env req) ⟨resp.StatusCode, resp.Header, resp.Body.data⟩]
      ∧ forwardCount (RoundTrip env cache2 req s2).trace = 0
      ∧ (RoundTrip env cache2 req s2).err = none
      ∧ ∃ r2, (RoundTrip env cache2 req s2).resp = some r2
          ∧ r2.StatusCode = resp.StatusCode
          ∧ (r2.StatusCode ≥ 300 ∧ r2.StatusCode < 400)
          ∧ (io.ReadAll r2.Body).1 = (resp.Body.data, none)
          ∧ r2.Header.Get "X-Cache" = "HIT"
          ∧ r2.Header.Values "X-Cache" = ["HIT"] := by
  have hns := lookupTrace_forward_no_store env req s
  have heq := (RoundTrip_of_final env cache req s resp hmiss hfinal).2.1 hcacheable hread hclose
  rw [heq] at hkept hfresh
  have hget := Cache.Get_Set_fresh cache (originalKey env req) _ _ (env.now s2) cache2 hkept hfresh
  rw [RoundTrip_of_hit env cache2 req s2 _ (cacheHit_of_Get env cache2 req s2 _ hnobypass hget),
    heq]
  refine ⟨?_, rfl, rfl, _, rfl, rfl, hredirect, rfl, Header.Get_Set_self _ _ _,
    Header.Values_Set_self _ _ _⟩
  rw [List.filter_append, filter_isStore_eq_nil _ hns]
  rfl

/-- C18 witness: `GET http://origin/a` answered by a `302` without `Location`;
the next identical request is a hit with status 302. -/
theorem C18_redirect_response_cached_witness :
    forwardCount (RoundTrip (originAlways foundNowhere)
        (RoundTrip (originAlways foundNowhere) InMemoryCache getA 0).cache getA 9).trace = 0
      ∧ ∃ r2, (RoundTrip (originAlways foundNowhere)
          (RoundTrip (originAlways foundNowhere) InMemoryCache getA 0).cache getA 9).resp = some r2
          ∧ r2.StatusCode = 302
          ∧ r2.Header.Values "X-Cache" = ["HIT"] :=
  have h := C18_redirect_response_cached (originAlways foundNowhere) InMemoryCache
    (RoundTrip (originAlways foundNowhere) InMemoryCache getA 0).cache getA 0 9 foundNowhere
    (by decide) rfl rfl (by decide) (by decide) rfl rfl rfl (by decide)
  ⟨h.2.1, h.2.2.2.imp fun _ hr => ⟨hr.1, hr.2.1, hr.2.2.2.2.2⟩⟩

end CachingProxy
